import Mathlib

/-!
Shallow embedding of the Brewin v4 interpreter (`src/interpreterv4.py`).

The interpreter evaluates a dynamically typed language in which the trailing
letter of an identifier fixes its declared type.  The Python code keeps three
kinds of identity-shared mutable storage: `Value` wrapper objects, the field
dictionaries of objects, and function/lambda descriptor objects.  We model
each with an explicit heap indexed by natural-number addresses inside the
interpreter state `St`:

* `St.cells`   — heap of `Value` wrappers (`Value` below mirrors the Python
  class `Value` with fields `t` and `v`);
* `St.dicts`   — heap of object field dictionaries (name to cell address);
* `St.funobjs` — heap of function/lambda descriptors (`Func` below mirrors
  the Python classes `Function` and `Lambda`).

Python `is` identity becomes address equality; Python exceptions that the
interpreter raises through `InterpreterBase.error` become `RunErr.err`; an
uncaught host-level (Python) exception becomes `RunErr.hostCrash`.
-/

namespace Brewin

/-- The `Type` enum of the source (`Type.INT .. Type.ERROR`).  Named `Ty`
because `Type` is a Lean keyword. -/
inductive Ty where
  | int
  | str
  | bool
  | obj
  | void
  | func
  | error
deriving DecidableEq, Repr

/-- Payload of a `Value` wrapper: the Python attribute `v`.  `pnone` is the
Python `None` (the nil object / nil function / void payload), `pobj d` holds
the address of a field dictionary in `St.dicts`, and `pfunc f` holds the
address of a function descriptor in `St.funobjs`. -/
inductive Payload where
  | pint (n : Int)
  | pstr (s : String)
  | pbool (b : Bool)
  | pnone
  | pobj (d : Nat)
  | pfunc (f : Nat)
deriving DecidableEq, Repr

/-- The Python class `Value`: a tag `t` and a payload `v`.  A Python `Value`
object is mutable and identity-shared; here every `Value` lives at an address
in `St.cells`, and mutation (`Value.set`) rewrites that heap slot. -/
structure Value where
  t : Ty
  v : Payload
deriving DecidableEq, Repr

/-- Python `Value.__default_value_for_type`.  The `ERROR` case raises a host
exception in the source (`raise Exception(...)`), modelled as `none`. -/
def defaultPayload : Ty → Option Payload
  | Ty.int => some (Payload.pint 0)
  | Ty.str => some (Payload.pstr "")
  | Ty.bool => some (Payload.pbool false)
  | Ty.obj => some Payload.pnone
  | Ty.func => some Payload.pnone
  | Ty.void => some Payload.pnone
  | Ty.error => none

/-- Last character of a string (`var_name[-1]` in Python), `none` for the
empty string. -/
def lastChar (s : String) : Option Char :=
  s.data.getLast?

/-- Python `Type.get_type`: map the trailing letter of an identifier to its
declared type; an uppercase letter is an interface name and is treated as
`obj`; an empty name or any other letter is `error`. -/
def Ty.getType (varName : String) : Ty :=
  match lastChar varName with
  | none => Ty.error
  | some c =>
    if c = 'i' then Ty.int
    else if c = 's' then Ty.str
    else if c = 'b' then Ty.bool
    else if c = 'o' then Ty.obj
    else if c = 'v' then Ty.void
    else if c = 'f' then Ty.func
    else if c.isUpper then Ty.obj
    else Ty.error

/-- Python `Interpreter.__get_interface_name`: the trailing letter as a
one-character interface name when it is uppercase, else `none`. -/
def getInterfaceName (name : String) : Option String :=
  match lastChar name with
  | none => none
  | some c => if c.isUpper then some (String.mk [c]) else none

/-- Python `"a.b.c".split(".")` specialised to the dot separator, written as
structural recursion over the character list so that it reduces by `rfl`. -/
def splitDotsAux : List Char → List Char → List (List Char)
  | [], acc => [acc.reverse]
  | c :: cs, acc =>
    if c = '.' then acc.reverse :: splitDotsAux cs []
    else splitDotsAux cs (c :: acc)

/-- Split a qualified name on dots (`name.split(".")` in the source). -/
def splitDots (s : String) : List String :=
  (splitDotsAux s.data []).map String.mk

/-- Boolean test for a list being a prefix of another, over characters. -/
def isPrefixList : List Char → List Char → Bool
  | [], _ => true
  | _ :: _, [] => false
  | a :: as, b :: bs => a == b && isPrefixList as bs

/-- Python substring membership `needle in hay` for strings, used because the
source applies `in` to an arbitrary payload when walking dotted paths. -/
def charListHasSub (hay needle : List Char) : Bool :=
  match hay with
  | [] => isPrefixList needle []
  | _ :: t => isPrefixList needle hay || charListHasSub t needle

/-- Error kinds of `intbase.ErrorType`. -/
inductive ErrKind where
  | nameError
  | typeError
  | faultError
deriving DecidableEq, Repr

/-- Run-ending outcomes.  `err` is `InterpreterBase.error(kind, msg)` (a
fatal Brewin error); `hostCrash` is an uncaught Python exception escaping the
interpreter (the source has several reachable ones); `outOfFuel` is an
artefact of the fuel-indexed evaluator and never corresponds to a source
behaviour. -/
inductive RunErr where
  | err (k : ErrKind) (msg : String)
  | hostCrash (msg : String)
  | outOfFuel
deriving DecidableEq, Repr

/-- A block scope: one Python dict mapping a variable name to the address of
its `Value` wrapper.  Insertion order is kept, keys are unique because every
insertion in the source is guarded by a membership check. -/
abbrev Block := List (String × Nat)

/-- One call frame of the Python `Environment`: `funcScope` is block 0 of
`self.env[-1]` (parameters and function-scoped variables), `blocks` are the
later blocks with the innermost block first. -/
structure Frame where
  funcScope : Block
  blocks : List Block
deriving Repr

/-- The environment stack `Environment.env`, current frame first. -/
abbrev Env := List Frame

/-- Python `Environment.enter_func`: push a frame with just block 0. -/
def enterFunc (e : Env) : Env :=
  ⟨[], []⟩ :: e

/-- Python `Environment.exit_func`: pop the current frame. -/
def exitFunc (e : Env) : Env :=
  e.tail

/-- Python `Environment.enter_block`: push a fresh block onto the current
frame.  An empty environment is unreachable (the evaluator only enters blocks
inside a call). -/
def enterBlock : Env → Env
  | [] => []
  | f :: r => { f with blocks := [] :: f.blocks } :: r

/-- Python `Environment.exit_block`: pop the innermost block of the current
frame.  The source would pop block 0 if blocks were unbalanced; the evaluator
always pairs enter/exit, so the `blocks = []` case is unreachable. -/
def exitBlock : Env → Env
  | [] => []
  | f :: r =>
    match f.blocks with
    | [] => f :: r
    | _ :: bs => { f with blocks := bs } :: r

/-- Python `Environment.fdef` on one frame: define at function scope (block
0), failing when the name is already present there. -/
def Frame.fdef (f : Frame) (n : String) (a : Nat) : Option Frame :=
  if (f.funcScope.lookup n).isSome then none
  else some { f with funcScope := f.funcScope ++ [(n, a)] }

/-- Python `Environment.bdef` on one frame: define in the innermost block
(`top_env[-1]`, which is block 0 when no nested block is open), failing when
the name is already present in that block. -/
def Frame.bdef (f : Frame) (n : String) (a : Nat) : Option Frame :=
  match f.blocks with
  | [] =>
    if (f.funcScope.lookup n).isSome then none
    else some { f with funcScope := f.funcScope ++ [(n, a)] }
  | b :: bs =>
    if (b.lookup n).isSome then none
    else some { f with blocks := (b ++ [(n, a)]) :: bs }

/-- Search a list of blocks front to back, mirroring the loop
`for block in reversed(top_env)` of `Environment.get` once the blocks are
listed innermost first. -/
def getBlocks : List Block → String → Option Nat
  | [], _ => none
  | b :: bs, n =>
    match b.lookup n with
    | some a => some a
    | none => getBlocks bs n

/-- Python `Environment.get` on one frame: innermost block to block 0. -/
def Frame.lookupVar (f : Frame) (n : String) : Option Nat :=
  getBlocks (f.blocks ++ [f.funcScope]) n

/-- Python `Environment.exists` on one frame: any block of the frame. -/
def Frame.varExists (f : Frame) (n : String) : Bool :=
  (f.funcScope :: f.blocks).any fun b => (b.lookup n).isSome

/-- Python `Environment.fdef` (current frame).  `none` reports both the
already-defined failure and the unreachable empty-environment crash. -/
def envFdef (e : Env) (n : String) (a : Nat) : Option Env :=
  match e with
  | [] => none
  | f :: r => (f.fdef n a).map (· :: r)

/-- Python `Environment.bdef` (current frame). -/
def envBdef (e : Env) (n : String) (a : Nat) : Option Env :=
  match e with
  | [] => none
  | f :: r => (f.bdef n a).map (· :: r)

/-- Python `Environment.get` (current frame only; `None` when absent). -/
def envGet (e : Env) (n : String) : Option Nat :=
  match e with
  | [] => none
  | f :: _ => f.lookupVar n

/-- Python `Environment.exists` (current frame only). -/
def envVarExists (e : Env) (n : String) : Bool :=
  match e with
  | [] => false
  | f :: _ => f.varExists n

/-- Insert-or-overwrite into an association list keeping the position of an
existing key, matching Python dict assignment `d[k] = v`. -/
def listUpsert {α : Type} : List (String × α) → String → α → List (String × α)
  | [], k, v => [(k, v)]
  | (k0, v0) :: rest, k, v =>
    if k0 = k then (k, v) :: rest
    else (k0, v0) :: listUpsert rest k v

/-- Merge one block into an accumulated captured dict, mirroring
`for name, val in block.items(): captured[name] = val`. -/
def blockFold (acc : List (String × Nat)) (b : Block) : List (String × Nat) :=
  b.foldl (fun a p => listUpsert a p.1 p.2) acc

/-- Merge a list of blocks in order (later blocks overwrite earlier ones). -/
def mergeBlocks (bs : List Block) : List (String × Nat) :=
  bs.foldl blockFold []

/-- Python `Environment.capture_vars`: every name visible in the current
frame mapped to its `Value`.  The source iterates `self.env[-1]` in Python
order, block 0 first and the innermost block last, so the innermost binding
of a name wins. -/
def Frame.captureVars (f : Frame) : List (String × Nat) :=
  mergeBlocks (f.funcScope :: f.blocks.reverse)

mutual

/-- Expression AST nodes, the vocabulary `eval_expr` dispatches on.  The
parser is an external collaborator, so the node type is ours; each
constructor corresponds to one `elem_type` the evaluator handles.  The
explicit-conversion node and nothing else of the source is omitted because no
claim touches it. -/
inductive Expr where
  | intLit (val : Int)
  | strLit (val : String)
  | boolLit (val : Bool)
  | nilLit
  | newObj
  | qname (name : String)
  | fcall (name : String) (args : List Expr)
  | lam (name : String) (args : List (String × Bool)) (statements : List Stmt)
  | binop (op : String) (op1 op2 : Expr)
  | neg (op1 : Expr)
  | notE (op1 : Expr)

/-- Statement AST nodes handled by `__run_statements`. -/
inductive Stmt where
  | varDecl (name : String)
  | bvarDecl (name : String)
  | assign (var : String) (expr : Expr)
  | fcallStmt (name : String) (args : List Expr)
  | ifStmt (condition : Expr) (statements elseStatements : List Stmt)
  | whileStmt (condition : Expr) (statements : List Stmt)
  | ret (expr : Option Expr)

end

/-- The Python classes `Function` and `Lambda`: return type, ordered formal
parameters with their by-reference flags, body, and (for a lambda only) the
captured-variable snapshot, mapping each captured name to the address of the
snapshot `Value` wrapper.  `capturedVars = some _` plays the role of
`isinstance(func_obj, Lambda)`. -/
structure Func where
  returnType : Ty
  formalArgs : List (String × Bool)
  statements : List Stmt
  capturedVars : Option (List (String × Nat))

/-- The Python class `Interface`: required fields with their declared types
and required methods with their recorded signatures (parameter type and
by-reference flag, in order; no return type is recorded). -/
structure Interface where
  name : String
  fieldVars : List (String × Ty)
  fieldFuncs : List (String × List (Ty × Bool))

/-- The interpreter's per-program tables: `self.funcs` maps a
(name, parameter-type-signature) pair to the address of a descriptor in
`St.funobjs`, and `self.interfaces` maps an interface name to its
descriptor. -/
structure Ctx where
  funcs : List ((String × String) × Nat)
  interfaces : List (String × Interface)

/-- Interpreter state: the three heaps, the environment stack, the output
written through `super().output`, and the pending host input lines. -/
structure St where
  cells : List Value
  dicts : List (List (String × Nat))
  funobjs : List Func
  env : Env
  output : List String
  inputs : List String

/-- Placeholder returned when a heap address is read out of range; such reads
never happen in runs that mirror the source. -/
def defaultValue : Value :=
  ⟨Ty.error, Payload.pnone⟩

/-- Placeholder descriptor for out-of-range function-heap reads. -/
def defaultFunc : Func :=
  ⟨Ty.error, [], [], none⟩

/-- Read a `Value` wrapper from the cell heap. -/
def getCell (st : St) (a : Nat) : Value :=
  st.cells.getD a defaultValue

/-- Python `Value.set(other)` on the wrapper at address `a`: overwrite tag
and payload in place; the address (identity) is untouched. -/
def setCell (st : St) (a : Nat) (c : Value) : St :=
  { st with cells := st.cells.set a c }

/-- Allocate a fresh `Value` wrapper (a Python `Value(...)` construction). -/
def allocCell (st : St) (c : Value) : Nat × St :=
  (st.cells.length, { st with cells := st.cells ++ [c] })

/-- Read an object field dictionary from the dict heap. -/
def getDict (st : St) (d : Nat) : List (String × Nat) :=
  st.dicts.getD d []

/-- Allocate a fresh empty field dictionary (the `@` new-object literal). -/
def allocDict (st : St) : Nat × St :=
  (st.dicts.length, { st with dicts := st.dicts ++ [[]] })

/-- Python `some_dict[k] = a` on the dictionary at address `d`. -/
def setDictEntry (st : St) (d : Nat) (k : String) (a : Nat) : St :=
  { st with dicts := st.dicts.set d (listUpsert (getDict st d) k a) }

/-- Read a function descriptor from the descriptor heap. -/
def getFunc (st : St) (f : Nat) : Func :=
  st.funobjs.getD f defaultFunc

/-- Allocate a fresh function/lambda descriptor. -/
def allocFunc (st : St) (fo : Func) : Nat × St :=
  (st.funobjs.length, { st with funobjs := st.funobjs ++ [fo] })

/-- Allocate `Value(t)` (default payload); the `ERROR` tag raises in the
source, hence `hostCrash`. -/
def allocDefaultValue (st : St) (t : Ty) : Except RunErr (Nat × St) :=
  match defaultPayload t with
  | some p => Except.ok (allocCell st ⟨t, p⟩)
  | none => Except.error (RunErr.hostCrash "invalid default value for type")

/-- Python membership `k in payload` as the source applies it while walking
dotted paths: key membership for a dict payload, substring membership for a
string payload, and an uncaught `TypeError` for anything else (`None`,
integers, booleans, function objects are not iterable). -/
def payloadContains (st : St) (p : Payload) (k : String) : Except RunErr Bool :=
  match p with
  | Payload.pobj d => Except.ok (((getDict st d).lookup k).isSome)
  | Payload.pstr s => Except.ok (charListHasSub s.data k.data)
  | _ => Except.error (RunErr.hostCrash "argument is not iterable")

/-- Python indexing `payload[k]`: dict lookup; a missing key or a non-dict
payload raises in the host. -/
def payloadGetField (st : St) (p : Payload) (k : String) : Except RunErr Nat :=
  match p with
  | Payload.pobj d =>
    match (getDict st d).lookup k with
    | some a => Except.ok a
    | none => Except.error (RunErr.hostCrash "KeyError")
  | _ => Except.error (RunErr.hostCrash "payload is not subscriptable")

/-- Python item assignment `payload[k] = a`. -/
def payloadSetField (st : St) (p : Payload) (k : String) (a : Nat) : Except RunErr St :=
  match p with
  | Payload.pobj d => Except.ok (setDictEntry st d k a)
  | _ => Except.error (RunErr.hostCrash "payload does not support item assignment")

/-- Python identity `vl_val is vr_val` for the payloads the source compares
with `is` (these occur only under Object/Object and Function/Function tag
guards, where a payload is `None`, a dict, or a function object): `None is
None` holds, dicts and function objects are identical exactly when they are
the same heap entry.  Primitive payloads are never compared with `is` by the
source (interning would make that implementation-defined). -/
def payloadIs : Payload → Payload → Bool
  | Payload.pnone, Payload.pnone => true
  | Payload.pobj a, Payload.pobj b => a == b
  | Payload.pfunc a, Payload.pfunc b => a == b
  | _, _ => false

/-- Python equality `vl_val == vr_val` as used in the final branch of
`__eval_binary_op`.  That branch also requires equal tags, so the dict and
function cases are unreachable there (object/object and function/function
comparisons were already handled by identity); they are modelled as address
equality.  `None == x` is false for any non-`None` `x`. -/
def payloadEq : Payload → Payload → Bool
  | Payload.pint a, Payload.pint b => a == b
  | Payload.pstr a, Payload.pstr b => a == b
  | Payload.pbool a, Payload.pbool b => a == b
  | Payload.pnone, Payload.pnone => true
  | Payload.pobj a, Payload.pobj b => a == b
  | Payload.pfunc a, Payload.pfunc b => a == b
  | _, _ => false

/-- Python `Interpreter.__eval_binary_op`, branch for branch: equality first
(with the both-nil, object identity, function identity, and function-vs-nil
special cases), then string concatenation, integer arithmetic and
comparisons, boolean connectives, and finally the `TypeError`.  Division is
Python `//`, floor division, and a zero divisor raises `ZeroDivisionError`
in the host (the source does not guard it). -/
def evalBinop (kind : String) (vl vr : Value) : Except RunErr Value :=
  let tl := vl.t
  let tr := vr.t
  let lv := vl.v
  let rv := vr.v
  if kind = "==" then
    if lv = Payload.pnone ∧ rv = Payload.pnone then
      Except.ok ⟨Ty.bool, Payload.pbool true⟩
    else if tl = Ty.obj ∧ tr = Ty.obj then
      Except.ok ⟨Ty.bool, Payload.pbool (decide (tl = tr) && payloadIs lv rv)⟩
    else if tl = Ty.func ∧ tr = Ty.func then
      Except.ok ⟨Ty.bool, Payload.pbool (decide (tl = tr) && payloadIs lv rv)⟩
    else if tl = Ty.func ∧ tr = Ty.obj then
      Except.ok ⟨Ty.bool, Payload.pbool false⟩
    else
      Except.ok ⟨Ty.bool, Payload.pbool (decide (tl = tr) && payloadEq lv rv)⟩
  else if kind = "!=" then
    if lv = Payload.pnone ∧ rv = Payload.pnone then
      Except.ok ⟨Ty.bool, Payload.pbool false⟩
    else if tl = Ty.obj ∧ tr = Ty.obj then
      Except.ok ⟨Ty.bool, Payload.pbool (!(decide (tl = tr) && payloadIs lv rv))⟩
    else if tl = Ty.func ∧ tr = Ty.func then
      Except.ok ⟨Ty.bool, Payload.pbool (!(decide (tl = tr) && payloadIs lv rv))⟩
    else if tl = Ty.func ∧ tr = Ty.obj then
      Except.ok ⟨Ty.bool, Payload.pbool true⟩
    else
      Except.ok ⟨Ty.bool, Payload.pbool (!(decide (tl = tr) && payloadEq lv rv))⟩
  else if tl = Ty.str ∧ tr = Ty.str ∧ kind = "+" then
    match lv, rv with
    | Payload.pstr a, Payload.pstr b => Except.ok ⟨Ty.str, Payload.pstr (a ++ b)⟩
    | _, _ => Except.error (RunErr.hostCrash "string-tagged value without string payload")
  else if tl = Ty.int ∧ tr = Ty.int then
    match lv, rv with
    | Payload.pint a, Payload.pint b =>
      if kind = "+" then Except.ok ⟨Ty.int, Payload.pint (a + b)⟩
      else if kind = "-" then Except.ok ⟨Ty.int, Payload.pint (a - b)⟩
      else if kind = "*" then Except.ok ⟨Ty.int, Payload.pint (a * b)⟩
      else if kind = "/" then
        if b = 0 then Except.error (RunErr.hostCrash "integer division by zero")
        else Except.ok ⟨Ty.int, Payload.pint (Int.fdiv a b)⟩
      else if kind = "<" then Except.ok ⟨Ty.bool, Payload.pbool (decide (a < b))⟩
      else if kind = "<=" then Except.ok ⟨Ty.bool, Payload.pbool (decide (a ≤ b))⟩
      else if kind = ">" then Except.ok ⟨Ty.bool, Payload.pbool (decide (b < a))⟩
      else if kind = ">=" then Except.ok ⟨Ty.bool, Payload.pbool (decide (b ≤ a))⟩
      else Except.error (RunErr.err ErrKind.typeError "invalid binary operation")
    | _, _ => Except.error (RunErr.hostCrash "int-tagged value without integer payload")
  else if tl = Ty.bool ∧ tr = Ty.bool then
    match lv, rv with
    | Payload.pbool a, Payload.pbool b =>
      if kind = "&&" then Except.ok ⟨Ty.bool, Payload.pbool (a && b)⟩
      else if kind = "||" then Except.ok ⟨Ty.bool, Payload.pbool (a || b)⟩
      else Except.error (RunErr.err ErrKind.typeError "invalid binary operation")
    | _, _ => Except.error (RunErr.hostCrash "bool-tagged value without boolean payload")
  else Except.error (RunErr.err ErrKind.typeError "invalid binary operation")

/-- Look up a function descriptor id under an exact (name, signature) key,
Python `self.funcs[(name, param_type_signature)]`. -/
def lookupFunc (ctx : Ctx) (name sig : String) : Option Nat :=
  (ctx.funcs.find? fun e => e.1.1 == name && e.1.2 == sig).map (·.2)

/-- All overload-table entries that share a bare name, Python
`[key for key in self.funcs.keys() if key[0] == fcall_name]`. -/
def funcsNamed (ctx : Ctx) (name : String) : List ((String × String) × Nat) :=
  ctx.funcs.filter fun e => e.1.1 == name

/-- Ordinary-call overload resolution, `Interpreter.__run_fcall` lines
515-526 together with `__get_function`: exact (name, signature) match; when
absent, `TypeError` if some declared function shares the name under another
signature, else `NameError`. -/
def resolveOrdinary (ctx : Ctx) (name sig : String) : Except RunErr Nat :=
  match lookupFunc ctx name sig with
  | some f => Except.ok f
  | none =>
    if funcsNamed ctx name ≠ [] then
      Except.error (RunErr.err ErrKind.typeError "argument type mismatch")
    else
      Except.error (RunErr.err ErrKind.nameError "function not found")

/-- Python `Interpreter.__get_arguments_type_signature`: one letter per
already-evaluated argument from its runtime tag; a `VOID` argument is a
`TypeError`, the `ERROR` tag raises in the host. -/
def argsTypeSig : List Value → Except RunErr String
  | [] => Except.ok ""
  | v :: rest => do
    let c : String ←
      match v.t with
      | Ty.int => Except.ok "i"
      | Ty.str => Except.ok "s"
      | Ty.bool => Except.ok "b"
      | Ty.obj => Except.ok "o"
      | Ty.func => Except.ok "f"
      | Ty.void => Except.error (RunErr.err ErrKind.typeError "void type not allowed as parameter")
      | Ty.error => Except.error (RunErr.hostCrash "should not reach this")
    let r ← argsTypeSig rest
    Except.ok (c ++ r)

/-- Trailing letters of the formal parameter names, uppercase (interface)
letters normalised to `o`; an empty parameter name would raise in the host. -/
def paramsTypeSigChars : List (String × Bool) → Except RunErr (List Char)
  | [] => Except.ok []
  | p :: rest =>
    match lastChar p.1 with
    | none => Except.error (RunErr.hostCrash "string index out of range")
    | some c => do
      let cs ← paramsTypeSigChars rest
      Except.ok ((if c.isUpper then 'o' else c) :: cs)

/-- Python `Interpreter.__get_parameters_type_signature`: the signature
string, rejected with `TypeError` unless every letter is one of `biosf`. -/
def paramsTypeSig (formals : List (String × Bool)) : Except RunErr String := do
  let cs ← paramsTypeSigChars formals
  if cs.all (fun c => c == 'b' || c == 'i' || c == 'o' || c == 's' || c == 'f') then
    Except.ok (String.mk cs)
  else
    Except.error (RunErr.err ErrKind.typeError "invalid type in formal parameter")

/-- Python `Function.__get_return_type`: `main` returns `VOID`, otherwise
the trailing letter decides. -/
def getReturnType (name : String) : Ty :=
  if name = "main" then Ty.void else Ty.getType name

/-- The dict comprehension `{a.get("name"): a.get("ref") for a in args}`:
a duplicated parameter name keeps its first position and the ref flag of its
last occurrence. -/
def dedupFormals (args : List (String × Bool)) : List (String × Bool) :=
  args.foldl (fun acc p => listUpsert acc p.1 p.2) []

/-- Python `Function.__init__` (also used for lambdas, which add a captured
snapshot afterwards). -/
def mkFunction (name : String) (args : List (String × Bool)) (stmts : List Stmt) : Func :=
  ⟨getReturnType name, dedupFormals args, stmts, none⟩

/-- One declared interface field in the AST: a variable or a method with its
parameter list. -/
inductive IField where
  | fvar (name : String)
  | ffunc (name : String) (params : List (String × Bool))

/-- Name of an interface field node. -/
def IField.fieldName : IField → String
  | IField.fvar n => n
  | IField.ffunc n _ => n

/-- An interface declaration node. -/
structure InterfaceAst where
  name : String
  fields : List IField

/-- A function declaration node. -/
structure FnAst where
  name : String
  args : List (String × Bool)
  statements : List Stmt

/-- A parsed program: its interface and function declarations. -/
structure Program where
  interfaces : List InterfaceAst
  functions : List FnAst

/-- Python `Interface.__assign_fields`: record each field variable with its
declared type and each field method with its (type, ref-flag) signature. -/
def Interface.ofFields (name : String) (fields : List IField) : Interface :=
  fields.foldl
    (fun acc f =>
      match f with
      | IField.fvar n => { acc with fieldVars := listUpsert acc.fieldVars n (Ty.getType n) }
      | IField.ffunc n ps =>
        { acc with fieldFuncs := listUpsert acc.fieldFuncs n (ps.map fun p => (Ty.getType p.1, p.2)) })
    ⟨name, [], []⟩

/-- Duplicate detector over a list of names (the `defined_fields` set). -/
def hasDupNames : List String → Bool
  | [] => false
  | s :: rest => rest.contains s || hasDupNames rest

/-- Python `Interpreter.__create_interface_table`: single uppercase-letter
names, no duplicate interfaces, no duplicate fields. -/
def buildInterfaceTableAux (acc : List (String × Interface)) :
    List InterfaceAst → Except RunErr (List (String × Interface))
  | [] => Except.ok acc
  | i :: rest =>
    match i.name.data with
    | [c] =>
      if ¬ c.isUpper then
        Except.error (RunErr.err ErrKind.nameError "interface name must be an uppercase letter")
      else if (acc.lookup i.name).isSome then
        Except.error (RunErr.err ErrKind.nameError "interface already defined")
      else if hasDupNames (i.fields.map IField.fieldName) then
        Except.error (RunErr.err ErrKind.nameError "duplicate field names in interfaces are not allowed")
      else
        buildInterfaceTableAux (acc ++ [(i.name, Interface.ofFields i.name i.fields)]) rest
    | _ => Except.error (RunErr.err ErrKind.nameError "interface name must be an uppercase letter")

/-- Python `Interpreter.__create_function_table`: per declaration, compute
the parameter signature (its own `TypeError` first), reject an `ERROR`
return type with `TypeError`, a duplicate (name, signature) with
`NameError`; descriptors are appended to the descriptor heap in order. -/
def buildFunctionTableAux (tbl : List ((String × String) × Nat)) (objs : List Func) :
    List FnAst → Except RunErr (List ((String × String) × Nat) × List Func)
  | [] => Except.ok (tbl, objs)
  | f :: rest => do
    let sig ← paramsTypeSig f.args
    let fo := mkFunction f.name f.args f.statements
    if fo.returnType = Ty.error then
      Except.error (RunErr.err ErrKind.typeError "")
    else if (tbl.find? fun e => e.1.1 == f.name && e.1.2 == sig).isSome then
      Except.error (RunErr.err ErrKind.nameError "function already defined")
    else
      buildFunctionTableAux (tbl ++ [((f.name, sig), objs.length)]) (objs ++ [fo]) rest

/-- The dotted-path walk of `Interpreter.__get_var_value` over all segments
after the root: nil payload is `FaultError`, a missing member `NameError`,
and every non-final segment must be declared an object by its trailing
letter (lowercase `o` or an uppercase interface letter) or `TypeError`.
The walk only reads the state. -/
def walkFields (st : St) : Nat → List String → Except RunErr Nat
  | addr, [] => Except.ok addr
  | addr, sub :: rest =>
    let c := getCell st addr
    if c.v = Payload.pnone then
      Except.error (RunErr.err ErrKind.faultError "nil reference access")
    else do
      let has ← payloadContains st c.v sub
      if ¬ has then
        Except.error (RunErr.err ErrKind.nameError "object member not found")
      else if rest = [] then do
        let a ← payloadGetField st c.v sub
        Except.ok a
      else
        match lastChar sub with
        | none => Except.error (RunErr.hostCrash "string index out of range")
        | some lc =>
          if lc ≠ 'o' ∧ ¬ lc.isUpper then
            Except.error (RunErr.err ErrKind.typeError "member must be an object")
          else do
            let a ← payloadGetField st c.v sub
            walkFields st a rest

/-- The walk of `Interpreter.__run_method_call` over the strictly
intermediate segments (`suffix_name[:-1]`): on that slice the loop condition
`i < len(suffix_name) - 1` always holds, so the trailing-letter check always
fires, and unlike the other walks it accepts only a lowercase `o` (no
uppercase interface letters). -/
def walkMethodMid (st : St) : Nat → List String → Except RunErr Nat
  | addr, [] => Except.ok addr
  | addr, sub :: rest =>
    let c := getCell st addr
    if c.v = Payload.pnone then
      Except.error (RunErr.err ErrKind.faultError "nil reference access")
    else do
      let has ← payloadContains st c.v sub
      if ¬ has then
        Except.error (RunErr.err ErrKind.nameError "object member not found")
      else
        match lastChar sub with
        | none => Except.error (RunErr.hostCrash "string index out of range")
        | some lc =>
          if lc ≠ 'o' then
            Except.error (RunErr.err ErrKind.typeError "member must be an object")
          else do
            let a ← payloadGetField st c.v sub
            walkMethodMid st a rest

/-- The walk of `Interpreter.__run_assign` over the middle segments
(`dotted_name[1:-1]`): membership first, then the trailing-letter check
(lowercase `o` or uppercase), then the step, then the nil check on the value
just reached. -/
def walkAssignMid (st : St) : Nat → List String → Except RunErr Nat
  | addr, [] => Except.ok addr
  | addr, sub :: rest => do
    let c := getCell st addr
    let has ← payloadContains st c.v sub
    if ¬ has then
      Except.error (RunErr.err ErrKind.nameError "object member not found")
    else
      match lastChar sub with
      | none => Except.error (RunErr.hostCrash "string index out of range")
      | some lc =>
        if lc ≠ 'o' ∧ ¬ lc.isUpper then
          Except.error (RunErr.err ErrKind.typeError "member must be an object")
        else do
          let a ← payloadGetField st c.v sub
          if (getCell st a).v = Payload.pnone then
            Except.error (RunErr.err ErrKind.faultError "cannot dereference nil member object")
          else walkAssignMid st a rest

/-- Python `Interpreter.__check_function_signatures` inner loop: each formal
parameter of the object's method must agree with the recorded interface
signature on declared type (from the parameter name) and ref flag. -/
def sigEntriesMatch : List (String × Bool) → List (Ty × Bool) → Bool
  | [], [] => true
  | (n, r) :: fs, (ft, fr) :: ss =>
    decide (Ty.getType n = ft) && (r == fr) && sigEntriesMatch fs ss
  | _, _ => false

/-- Python `Interpreter.__check_function_signatures`: parameter count, then
per-parameter type and ref flag.  A `None` method payload has no
`formal_args` attribute and raises in the host. -/
def checkFunctionSignatures (st : St) (p : Payload) (fieldSig : List (Ty × Bool)) :
    Except RunErr Bool :=
  match p with
  | Payload.pfunc fid =>
    let fo := getFunc st fid
    if fo.formalArgs.length ≠ fieldSig.length then Except.ok false
    else Except.ok (sigEntriesMatch fo.formalArgs fieldSig)
  | _ => Except.error (RunErr.hostCrash "payload has no attribute formal args")

/-- Field-variable loop of `Interpreter.__interface_satisfaction`. -/
def checkFieldVars (st : St) (p : Payload) : List (String × Ty) → Except RunErr Bool
  | [] => Except.ok true
  | (fn, ft) :: rest => do
    let has ← payloadContains st p fn
    if ¬ has then Except.ok false
    else do
      let a ← payloadGetField st p fn
      if (getCell st a).t ≠ ft then Except.ok false
      else checkFieldVars st p rest

/-- Field-method loop of `Interpreter.__interface_satisfaction`. -/
def checkFieldFuncs (st : St) (p : Payload) :
    List (String × List (Ty × Bool)) → Except RunErr Bool
  | [] => Except.ok true
  | (fn, fsig) :: rest => do
    let has ← payloadContains st p fn
    if ¬ has then Except.ok false
    else do
      let a ← payloadGetField st p fn
      if (getCell st a).t ≠ Ty.func then Except.ok false
      else do
        let sgOk ← checkFunctionSignatures st (getCell st a).v fsig
        if ¬ sgOk then Except.ok false
        else checkFieldFuncs st p rest

/-- Python `Interpreter.__interface_satisfaction`: unknown interface is
`NameError`; a `None` payload vacuously satisfies; a non-Object tag fails;
otherwise every required field and method must match structurally. -/
def interfaceSatisfaction (ctx : Ctx) (st : St) (obj : Value) (interfaceName : String) :
    Except RunErr Bool :=
  match ctx.interfaces.lookup interfaceName with
  | none => Except.error (RunErr.err ErrKind.nameError "interface does not exist")
  | some itf =>
    if obj.v = Payload.pnone then Except.ok true
    else if obj.t ≠ Ty.obj then Except.ok false
    else do
      let okVars ← checkFieldVars st obj.v itf.fieldVars
      if ¬ okVars then Except.ok false
      else checkFieldFuncs st obj.v itf.fieldFuncs

/-- Python `Interpreter.__run_assign` after the right-hand side has been
evaluated (to the wrapper at `rvAddr`): existence of the root, the
declared-type / interface checks against the final segment, then either the
in-place `value.set(rvalue)` for a plain variable or the walk plus the
terminal dictionary write for a dotted path.  The terminal write stores the
evaluated wrapper itself for an Object right-hand side and a freshly
constructed wrapper otherwise — it rebinds the dictionary entry rather than
mutating the previous field cell. -/
def assignToPath (ctx : Ctx) (st : St) (parts : List String) (rvAddr : Nat) :
    Except RunErr St :=
  match parts with
  | [] => Except.error (RunErr.hostCrash "empty assignment target")
  | p0 :: rest =>
    let rv := getCell st rvAddr
    if ¬ envVarExists st.env p0 then
      Except.error (RunErr.err ErrKind.nameError "variable not defined")
    else
      let lastSeg := (p0 :: rest).getLastD ""
      let varType := Ty.getType lastSeg
      let checkRes : Except RunErr Unit :=
        match getInterfaceName lastSeg with
        | some iname =>
          if rv.t ≠ Ty.obj then
            Except.error (RunErr.err ErrKind.typeError "interface variable can only be assigned to an object")
          else do
            let sat ← interfaceSatisfaction ctx st rv iname
            if ¬ sat then
              Except.error (RunErr.err ErrKind.typeError "object does not satisfy the interface")
            else Except.ok ()
        | none =>
          if rv.v = Payload.pnone then
            if varType ≠ Ty.obj ∧ varType ≠ Ty.func then
              Except.error (RunErr.err ErrKind.typeError "type mismatch in assignment")
            else Except.ok ()
          else if varType ≠ rv.t then
            Except.error (RunErr.err ErrKind.typeError "type mismatch in assignment")
          else Except.ok ()
      do
        let _ ← checkRes
        if rest = [] then
          match envGet st.env p0 with
          | some a => Except.ok (setCell st a rv)
          | none => Except.error (RunErr.hostCrash "variable lookup inconsistent")
        else
          match envGet st.env p0 with
          | none => Except.error (RunErr.hostCrash "variable lookup inconsistent")
          | some a0 =>
            let lv := getCell st a0
            if lv.t ≠ Ty.obj then
              Except.error (RunErr.err ErrKind.typeError "cannot access member of non-object")
            else if lv.v = Payload.pnone then
              Except.error (RunErr.err ErrKind.faultError "cannot dereference nil object")
            else do
              let aMid ← walkAssignMid st a0 rest.dropLast
              if rv.t = Ty.obj then
                payloadSetField st (getCell st aMid).v lastSeg rvAddr
              else
                let (fresh, st2) := allocCell st ⟨rv.t, rv.v⟩
                payloadSetField st2 (getCell st2 aMid).v lastSeg fresh

/-- Variable/dotted-read path of `Interpreter.__get_var_value` (everything
after the first-class-function check): root existence, the root
trailing-letter check for dotted reads, then the field walk. -/
def getVarValueVar (st : St) (parts : List String) : Except RunErr Nat :=
  match parts with
  | [] => Except.error (RunErr.hostCrash "empty qualified name")
  | p0 :: rest =>
    if ¬ envVarExists st.env p0 then
      Except.error (RunErr.err ErrKind.nameError "variable not defined")
    else
      match envGet st.env p0 with
      | none => Except.error (RunErr.hostCrash "variable lookup inconsistent")
      | some a0 =>
        if rest = [] then Except.ok a0
        else
          match lastChar p0 with
          | none => Except.error (RunErr.hostCrash "string index out of range")
          | some bc =>
            if ¬ bc.isUpper ∧ bc ≠ 'o' then
              Except.error (RunErr.err ErrKind.typeError "cannot dereference a non-object")
            else walkFields st a0 rest

/-- Python `Interpreter.__get_var_value`: a single-segment name that matches
exactly one declared function denotes that function as a first-class value
(before any variable lookup); two or more matches are ambiguous
(`NameError`); otherwise fall through to the variable/dotted path. -/
def getVarValue (ctx : Ctx) (st : St) (name : String) : Except RunErr (Nat × St) :=
  let parts := splitDots name
  let funcCase : Option (Except RunErr (Nat × St)) :=
    if parts.length = 1 then
      match funcsNamed ctx name with
      | [e] => some (Except.ok (allocCell st ⟨Ty.func, Payload.pfunc e.2⟩))
      | _ :: _ :: _ =>
        some (Except.error (RunErr.err ErrKind.nameError
          "ambiguous function-value assignments for overloaded names"))
      | [] => none
    else none
  match funcCase with
  | some r => r
  | none =>
    match getVarValueVar st parts with
    | Except.ok a => Except.ok (a, st)
    | Except.error e => Except.error e

/-- Method resolution of `Interpreter.__run_method_call` up to the point the
descriptor and the receiver are known: root existence, the intermediate walk
(`walkMethodMid`), then the final receiver is searched for the method name —
with no nil check on that receiver, so a nil final receiver raises in the
host (`"m" in None`) instead of producing a `FaultError`.  A non-Function
member is `TypeError`, a Function-tagged nil member is `FaultError`. -/
def resolveMethodCall (st : St) (methodPath : String) : Except RunErr (Nat × Nat) :=
  match splitDots methodPath with
  | [] => Except.error (RunErr.hostCrash "empty method path")
  | p0 :: suffix =>
    if ¬ envVarExists st.env p0 then
      Except.error (RunErr.err ErrKind.nameError "variable not defined")
    else
      match envGet st.env p0 with
      | none => Except.error (RunErr.hostCrash "variable lookup inconsistent")
      | some a0 => do
        let recv ← walkMethodMid st a0 suffix.dropLast
        match suffix.getLast? with
        | none => Except.error (RunErr.hostCrash "list index out of range")
        | some mname => do
          let c := getCell st recv
          let has ← payloadContains st c.v mname
          if ¬ has then
            Except.error (RunErr.err ErrKind.nameError "method not found")
          else do
            let ma ← payloadGetField st c.v mname
            let mv := getCell st ma
            if mv.t ≠ Ty.func then
              Except.error (RunErr.err ErrKind.typeError "calling a non-function")
            else if mv.v = Payload.pnone then
              Except.error (RunErr.err ErrKind.faultError "calling a nil function")
            else
              match mv.v with
              | Payload.pfunc fid => Except.ok (fid, recv)
              | _ => Except.error (RunErr.hostCrash "function-tagged value without descriptor")

/-- Python `Interpreter.__clone_for_passing`: a by-reference parameter binds
the very wrapper produced by the actual argument; a by-value parameter binds
a shallow copy — a fresh wrapper with the same tag and the same payload
reference. -/
def cloneForPassing (st : St) (argAddr : Nat) (refParam : Bool) : Nat × St :=
  if refParam then (argAddr, st)
  else allocCell st (getCell st argAddr)

/-- The per-entry transform of `Interpreter.__create_lambda`: primitives go
through `copy(val)`, Object/Function entries through `Value(val.t, val.v)`,
anything else through `copy(val)` again.  All three build a fresh wrapper
with the same tag and the same payload reference — the value/reference
distinction of the spec comes from primitive payloads being immutable. -/
def cloneWrapper (c : Value) : Value :=
  match c.t with
  | Ty.int => ⟨c.t, c.v⟩
  | Ty.str => ⟨c.t, c.v⟩
  | Ty.bool => ⟨c.t, c.v⟩
  | Ty.obj => ⟨c.t, c.v⟩
  | Ty.func => ⟨c.t, c.v⟩
  | _ => ⟨c.t, c.v⟩

/-- Snapshot cloning loop of `Interpreter.__create_lambda`: each captured
entry gets a fresh wrapper in creation order. -/
def cloneCapturedVars : List (String × Nat) → St → List (String × Nat) × St
  | [], st => ([], st)
  | (n, a) :: rest, st =>
    let (a2, st2) := allocCell st (cloneWrapper (getCell st a))
    let (tail, st3) := cloneCapturedVars rest st2
    ((n, a2) :: tail, st3)

/-- Python `Interpreter.__create_lambda`: capture every visible variable of
the current frame, clone each entry into the snapshot, build the lambda
descriptor, and wrap it as a Function value.  The source tries to skip
captured names equal to a lambda parameter, but it compares a string against
AST nodes (`if name in lambda_params` where `lambda_params` is a list of
`Element`s), which is never true, so no name is skipped. -/
def createLambda (st : St) (name : String) (args : List (String × Bool))
    (body : List Stmt) : Except RunErr (Nat × St) :=
  match st.env with
  | [] => Except.error (RunErr.hostCrash "no active frame")
  | f :: _ =>
    let (captured, st2) := cloneCapturedVars f.captureVars st
    let fo : Func := { mkFunction name args body with capturedVars := some captured }
    let (fid, st3) := allocFunc st2 fo
    Except.ok (allocCell st3 ⟨Ty.func, Payload.pfunc fid⟩)

/-- String form of a printed value, `Interpreter.__handle_print`: a
Bool-tagged value prints lowercase; otherwise Python `str` of the payload.
The host `repr` of a raw dict or function object (never printed by the
programs this development reasons about) is abstracted to a stable tag. -/
def valueToOutString (c : Value) : String :=
  match c.t, c.v with
  | Ty.bool, Payload.pbool b => if b then "true" else "false"
  | _, Payload.pbool b => if b then "True" else "False"
  | _, Payload.pint n => toString n
  | _, Payload.pstr s => s
  | _, Payload.pnone => "None"
  | _, Payload.pobj d => "<object " ++ toString d ++ ">"
  | _, Payload.pfunc f => "<function " ++ toString f ++ ">"

/-- Interface check on ordinary-call parameter passing, `__run_fcall` lines
529-536: an interface-typed formal requires an Object-tagged actual that
satisfies the interface. -/
def checkInterfaceParams (ctx : Ctx) (st : St) :
    List ((String × Bool) × Nat) → Except RunErr Unit
  | [] => Except.ok ()
  | ((fnm, _), a) :: rest =>
    match getInterfaceName fnm with
    | none => checkInterfaceParams ctx st rest
    | some iname =>
      let c := getCell st a
      if c.t ≠ Ty.obj then
        Except.error (RunErr.err ErrKind.typeError "argument can only be an object")
      else do
        let sat ← interfaceSatisfaction ctx st c iname
        if ¬ sat then
          Except.error (RunErr.err ErrKind.typeError "argument does not satisfy the interface")
        else checkInterfaceParams ctx st rest

/-- Parameter checks of `__call_function_value` lines 593-604: declared type
from the formal name against the runtime tag, then the interface check. -/
def checkValueCallParams (ctx : Ctx) (st : St) :
    List ((String × Bool) × Nat) → Except RunErr Unit
  | [] => Except.ok ()
  | ((fnm, _), a) :: rest =>
    let c := getCell st a
    if Ty.getType fnm ≠ c.t then
      Except.error (RunErr.err ErrKind.typeError "argument type mismatch")
    else
      match getInterfaceName fnm with
      | none => checkValueCallParams ctx st rest
      | some iname =>
        if c.t ≠ Ty.obj then
          Except.error (RunErr.err ErrKind.typeError "argument takes in object of interface type")
        else do
          let sat ← interfaceSatisfaction ctx st c iname
          if ¬ sat then
            Except.error (RunErr.err ErrKind.typeError "object does not satisfy interface")
          else checkValueCallParams ctx st rest

/-- Parameter binding of the ordinary-call path, `__run_fcall` lines
539-546: clone for passing, then `fdef`; a failed `fdef` (duplicate formal)
is silently discarded exactly as the source discards the returned `False`. -/
def bindOrdinary (st : St) : List ((String × Bool) × Nat) → St
  | [] => st
  | ((n, refp), a) :: rest =>
    let (a2, st2) := cloneForPassing st a refp
    let st3 :=
      match envFdef st2.env n a2 with
      | some e2 => { st2 with env := e2 }
      | none => st2
    bindOrdinary st3 rest

/-- Captured-snapshot binding of `__call_function_value`: each snapshot
entry is `fdef`-ed into the fresh frame (result discarded). -/
def bindCaptured (st : St) : List (String × Nat) → St
  | [] => st
  | (n, a) :: rest =>
    let st2 :=
      match envFdef st.env n a with
      | some e2 => { st with env := e2 }
      | none => st
    bindCaptured st2 rest

/-- Formal binding of `__call_function_value` lines 616-629: clone for
passing, then either overwrite an existing cell in place (a formal shadowing
a captured name or `selfo`) or `fdef` a new one. -/
def bindWithShadow (st : St) : List ((String × Bool) × Nat) → St
  | [] => st
  | ((n, refp), a) :: rest =>
    let (a2, st2) := cloneForPassing st a refp
    let st3 :=
      if envVarExists st2.env n then
        match envGet st2.env n with
        | some sa => setCell st2 sa (getCell st2 a2)
        | none => st2
      else
        match envFdef st2.env n a2 with
        | some e2 => { st2 with env := e2 }
        | none => st2
    bindWithShadow st3 rest

/-- Python `Interpreter.__run_vardef`: reject `ERROR`/`VOID` declared types,
allocate the default value, then define at function scope or block scope;
a failed define is a `NameError`. -/
def runVardef (st : St) (name : String) (blockDef : Bool) : Except RunErr St :=
  let vt := Ty.getType name
  if vt = Ty.error ∨ vt = Ty.void then
    Except.error (RunErr.err ErrKind.typeError "invalid variable type")
  else do
    let (a, st2) ← allocDefaultValue st vt
    if blockDef then
      match envBdef st2.env name a with
      | some e2 => Except.ok { st2 with env := e2 }
      | none => Except.error (RunErr.err ErrKind.nameError "variable already defined")
    else
      match envFdef st2.env name a with
      | some e2 => Except.ok { st2 with env := e2 }
      | none => Except.error (RunErr.err ErrKind.nameError "variable already defined")

/-- Request shapes for the fuel-indexed evaluator: one constructor per
recursive evaluation routine of the source.  The whole recursive nest is
expressed as one step functional (`interpStep`) iterated with `Nat.rec`
(`interp`) so that concrete runs reduce inside the kernel; the named
wrappers below (`evalExpr`, `runFcall`, ...) restore the source's
per-function signatures. -/
inductive Req where
  | rExpr (e : Expr)
  | rArgs (args : List Expr)
  | rFcall (name : String) (args : List Expr)
  | rOrdinary (name : String) (args : List Expr)
  | rMethodCall (path : String) (args : List Expr)
  | rCallFV (fid : Nat) (args : List Expr) (selfo : Option Nat)
  | rPrint (args : List Expr)
  | rPrintArgs (args : List Expr) (acc : String)
  | rInput (name : String) (args : List Expr)
  | rAssign (var : String) (e : Expr)
  | rStatements (fd : Func) (stmts : List Stmt)
  | rStmtsGo (fd : Func) (stmts : List Stmt) (res : Nat)
  | rIf (fd : Func) (cond : Expr) (thenS elseS : List Stmt)
  | rWhile (fd : Func) (cond : Expr) (body : List Stmt)
  | rWhileLoop (fd : Func) (cond : Expr) (body : List Stmt) (res : Nat) (ret : Bool)
  | rReturn (fd : Func) (e : Option Expr)

/-- Answer shapes for the evaluator: an expression yields the address of a
`Value` wrapper, argument lists yield address lists, the print-argument loop
a string, an assignment nothing, and statement sequences a
`(result, returned)` pair. -/
inductive Ans where
  | aAddr (a : Nat)
  | aAddrs (l : List Nat)
  | aStr (s : String)
  | aUnit
  | aRes (a : Nat) (ret : Bool)

/-- Project an address answer (the other shapes never occur at the call
sites that use this projection). -/
def asAddr : Ans × St → Except RunErr (Nat × St)
  | (Ans.aAddr a, st) => Except.ok (a, st)
  | (_, _) => Except.error (RunErr.hostCrash "answer shape mismatch")

/-- Project an address-list answer. -/
def asAddrs : Ans × St → Except RunErr (List Nat × St)
  | (Ans.aAddrs l, st) => Except.ok (l, st)
  | (_, _) => Except.error (RunErr.hostCrash "answer shape mismatch")

/-- Project a string answer. -/
def asStr : Ans × St → Except RunErr (String × St)
  | (Ans.aStr s, st) => Except.ok (s, st)
  | (_, _) => Except.error (RunErr.hostCrash "answer shape mismatch")

/-- Project a `(result, returned)` answer. -/
def asRes : Ans × St → Except RunErr ((Nat × Bool) × St)
  | (Ans.aRes a r, st) => Except.ok ((a, r), st)
  | (_, _) => Except.error (RunErr.hostCrash "answer shape mismatch")

/-- One step of the evaluator; `rec` is the evaluator at the next smaller
fuel.  Each `Req` branch is a clause-by-clause translation of the source
routine named in its comment. -/
def interpStep (ctx : Ctx) (rec : Req → St → Except RunErr (Ans × St)) :
    Req → St → Except RunErr (Ans × St)
  -- `Interpreter.eval_expr`: every produced `Value` is allocated in the
  -- cell heap; a qualified name returns the existing wrapper (aliasing).
  | Req.rExpr e, st =>
    match e with
    | Expr.intLit n => Except.ok (Ans.aAddr (allocCell st ⟨Ty.int, Payload.pint n⟩).1, (allocCell st ⟨Ty.int, Payload.pint n⟩).2)
    | Expr.strLit sv => Except.ok (Ans.aAddr (allocCell st ⟨Ty.str, Payload.pstr sv⟩).1, (allocCell st ⟨Ty.str, Payload.pstr sv⟩).2)
    | Expr.boolLit b => Except.ok (Ans.aAddr (allocCell st ⟨Ty.bool, Payload.pbool b⟩).1, (allocCell st ⟨Ty.bool, Payload.pbool b⟩).2)
    | Expr.nilLit => Except.ok (Ans.aAddr (allocCell st ⟨Ty.obj, Payload.pnone⟩).1, (allocCell st ⟨Ty.obj, Payload.pnone⟩).2)
    | Expr.newObj =>
      let (d, st2) := allocDict st
      let (a, st3) := allocCell st2 ⟨Ty.obj, Payload.pobj d⟩
      Except.ok (Ans.aAddr a, st3)
    | Expr.qname n => do
      let (a, st2) ← getVarValue ctx st n
      Except.ok (Ans.aAddr a, st2)
    | Expr.fcall n args => rec (Req.rFcall n args) st
    | Expr.lam n args body => do
      let (a, st2) ← createLambda st n args body
      Except.ok (Ans.aAddr a, st2)
    | Expr.binop op l r => do
      let (la, st2) ← asAddr (← rec (Req.rExpr l) st)
      let (ra, st3) ← asAddr (← rec (Req.rExpr r) st2)
      let v ← evalBinop op (getCell st3 la) (getCell st3 ra)
      let (a, st4) := allocCell st3 v
      Except.ok (Ans.aAddr a, st4)
    | Expr.neg e1 => do
      let (a, st2) ← asAddr (← rec (Req.rExpr e1) st)
      let c := getCell st2 a
      if c.t = Ty.int then
        match c.v with
        | Payload.pint n =>
          let (a2, st3) := allocCell st2 ⟨Ty.int, Payload.pint (-n)⟩
          Except.ok (Ans.aAddr a2, st3)
        | _ => Except.error (RunErr.hostCrash "int-tagged value without integer payload")
      else Except.error (RunErr.err ErrKind.typeError "cannot negate non-integer")
    | Expr.notE e1 => do
      let (a, st2) ← asAddr (← rec (Req.rExpr e1) st)
      let c := getCell st2 a
      if c.t = Ty.bool then
        match c.v with
        | Payload.pbool b =>
          let (a2, st3) := allocCell st2 ⟨Ty.bool, Payload.pbool (!b)⟩
          Except.ok (Ans.aAddr a2, st3)
        | _ => Except.error (RunErr.hostCrash "bool-tagged value without boolean payload")
      else Except.error (RunErr.err ErrKind.typeError "cannot apply NOT to non-boolean")
  -- left-to-right evaluation of actual arguments.
  | Req.rArgs [], st => Except.ok (Ans.aAddrs [], st)
  | Req.rArgs (a :: rest), st => do
    let (x, st2) ← asAddr (← rec (Req.rExpr a) st)
    let (xs, st3) ← asAddrs (← rec (Req.rArgs rest) st2)
    Except.ok (Ans.aAddrs (x :: xs), st3)
  -- `Interpreter.__run_fcall`: intrinsics, then dotted method calls, then a
  -- call through a Function-tagged variable, then ordinary calls.
  | Req.rFcall fname args, st =>
    if fname = "inputi" ∨ fname = "inputs" then rec (Req.rInput fname args) st
    else if fname = "print" then rec (Req.rPrint args) st
    else if fname.data.contains '.' then rec (Req.rMethodCall fname args) st
    else
      match st.env with
      | [] => rec (Req.rOrdinary fname args) st
      | _ :: _ =>
        match envGet st.env fname with
        | some fa =>
          let fv := getCell st fa
          if fv.t = Ty.func then
            if fv.v = Payload.pnone then
              Except.error (RunErr.err ErrKind.faultError "cannot call a nil function")
            else
              match fv.v with
              | Payload.pfunc fid => rec (Req.rCallFV fid args none) st
              | _ => Except.error (RunErr.hostCrash "function-tagged value without descriptor")
          else rec (Req.rOrdinary fname args) st
        | none => rec (Req.rOrdinary fname args) st
  -- ordinary-call path of `__run_fcall` lines 510-550.
  | Req.rOrdinary fname args, st => do
    let (actuals, st2) ← asAddrs (← rec (Req.rArgs args) st)
    let sig ← argsTypeSig (actuals.map (getCell st2))
    let fid ← resolveOrdinary ctx fname sig
    let fo := getFunc st2 fid
    let _ ← checkInterfaceParams ctx st2 (fo.formalArgs.zip actuals)
    let st3 := { st2 with env := enterFunc st2.env }
    let st4 := bindOrdinary st3 (fo.formalArgs.zip actuals)
    let ((res, _), st5) ← asRes (← rec (Req.rStatements fo fo.statements) st4)
    Except.ok (Ans.aAddr res, { st5 with env := exitFunc st5.env })
  -- `Interpreter.__run_method_call`.
  | Req.rMethodCall path args, st => do
    let (fid, recv) ← resolveMethodCall st path
    rec (Req.rCallFV fid args (some recv)) st
  -- `Interpreter.__call_function_value`.
  | Req.rCallFV fid args selfoAddr, st => do
    let fo := getFunc st fid
    let (actuals, st2) ← asAddrs (← rec (Req.rArgs args) st)
    let _ ← argsTypeSig (actuals.map (getCell st2))
    if actuals.length ≠ fo.formalArgs.length then
      Except.error (RunErr.err ErrKind.typeError "number of arguments do not match")
    else do
      let _ ← checkValueCallParams ctx st2 (fo.formalArgs.zip actuals)
      let st3 := { st2 with env := enterFunc st2.env }
      let st4 :=
        match selfoAddr with
        | some sa =>
          match envFdef st3.env "selfo" sa with
          | some e2 => { st3 with env := e2 }
          | none => st3
        | none => st3
      let st5 :=
        match fo.capturedVars with
        | some cap => bindCaptured st4 cap
        | none => st4
      let st6 := bindWithShadow st5 (fo.formalArgs.zip actuals)
      let ((res, _), st7) ← asRes (← rec (Req.rStatements fo fo.statements) st6)
      Except.ok (Ans.aAddr res, { st7 with env := exitFunc st7.env })
  -- `Interpreter.__handle_print`.
  | Req.rPrint args, st => do
    let (s, st2) ← asStr (← rec (Req.rPrintArgs args "") st)
    let st3 := { st2 with output := st2.output ++ [s] }
    let (a, st4) := allocCell st3 ⟨Ty.void, Payload.pnone⟩
    Except.ok (Ans.aAddr a, st4)
  -- argument loop of `__handle_print`: a Void argument is a `TypeError`.
  | Req.rPrintArgs [] acc, st => Except.ok (Ans.aStr acc, st)
  | Req.rPrintArgs (a :: rest) acc, st => do
    let (ca, st2) ← asAddr (← rec (Req.rExpr a) st)
    let c := getCell st2 ca
    if c.t = Ty.void then
      Except.error (RunErr.err ErrKind.typeError "cannot pass void argument to function")
    else rec (Req.rPrintArgs rest (acc ++ valueToOutString c)) st2
  -- `Interpreter.__handle_input`: the host input line comes from
  -- `St.inputs`; `inputi` parses with Python `int(...)`, modelled by
  -- `String.toInt?` (a parse failure raises in the host).
  | Req.rInput fname args, st =>
    if args.length > 1 then
      Except.error (RunErr.err ErrKind.nameError "too many arguments for input function")
    else do
      let st2 ←
        if args.isEmpty then Except.ok st
        else do
          let (_, s2) ← asAddr (← rec (Req.rPrint args) st)
          Except.ok s2
      match st2.inputs with
      | [] => Except.error (RunErr.hostCrash "no input available")
      | line :: restIn =>
        let st3 := { st2 with inputs := restIn }
        if fname = "inputi" then
          match line.toInt? with
          | some n =>
            let (a, st4) := allocCell st3 ⟨Ty.int, Payload.pint n⟩
            Except.ok (Ans.aAddr a, st4)
          | none => Except.error (RunErr.hostCrash "invalid literal for int")
        else
          let (a, st4) := allocCell st3 ⟨Ty.str, Payload.pstr line⟩
          Except.ok (Ans.aAddr a, st4)
  -- `Interpreter.__run_assign`: split the target, evaluate the right-hand
  -- side, then `assignToPath`.
  | Req.rAssign varName e, st => do
    let (ra, st2) ← asAddr (← rec (Req.rExpr e) st)
    let st3 ← assignToPath ctx st2 (splitDots varName) ra
    Except.ok (Ans.aUnit, st3)
  -- `Interpreter.__run_statements`: allocate the default result for the
  -- declared return type, then thread the `(result, returned)` pair.
  | Req.rStatements fd stmts, st => do
    let (res0, st2) ← allocDefaultValue st fd.returnType
    rec (Req.rStmtsGo fd stmts res0) st2
  -- statement loop of `__run_statements`.
  | Req.rStmtsGo _ [] res, st => Except.ok (Ans.aRes res false, st)
  | Req.rStmtsGo fd (s :: rest) res, st =>
    match s with
    | Stmt.varDecl n => do
      let st2 ← runVardef st n false
      rec (Req.rStmtsGo fd rest res) st2
    | Stmt.bvarDecl n => do
      let st2 ← runVardef st n true
      rec (Req.rStmtsGo fd rest res) st2
    | Stmt.assign v e => do
      let (_, st2) ← rec (Req.rAssign v e) st
      rec (Req.rStmtsGo fd rest res) st2
    | Stmt.fcallStmt n args => do
      let (_, st2) ← rec (Req.rFcall n args) st
      rec (Req.rStmtsGo fd rest res) st2
    | Stmt.ifStmt c t el => do
      let ((res2, ret), st2) ← asRes (← rec (Req.rIf fd c t el) st)
      if ret then Except.ok (Ans.aRes res2 true, st2)
      else rec (Req.rStmtsGo fd rest res2) st2
    | Stmt.whileStmt c b => do
      let ((res2, ret), st2) ← asRes (← rec (Req.rWhile fd c b) st)
      if ret then Except.ok (Ans.aRes res2 true, st2)
      else rec (Req.rStmtsGo fd rest res2) st2
    | Stmt.ret e => rec (Req.rReturn fd e) st
  -- `Interpreter.__run_if`: Bool condition required; the body runs in a
  -- fresh block, destroyed on exit regardless of path.
  | Req.rIf fd cond thenS elseS, st => do
    let (ca, st2) ← asAddr (← rec (Req.rExpr cond) st)
    let c := getCell st2 ca
    if c.t ≠ Ty.bool then
      Except.error (RunErr.err ErrKind.typeError "condition must be boolean")
    else do
      let st3 := { st2 with env := enterBlock st2.env }
      let (res0, st4) ← allocDefaultValue st3 fd.returnType
      let ((res, ret), st5) ←
        match c.v with
        | Payload.pbool true => asRes (← rec (Req.rStatements fd thenS) st4)
        | Payload.pbool false =>
          if elseS.isEmpty then Except.ok ((res0, false), st4)
          else asRes (← rec (Req.rStatements fd elseS) st4)
        | _ => Except.error (RunErr.hostCrash "bool-tagged value without boolean payload")
      Except.ok (Ans.aRes res ret, { st5 with env := exitBlock st5.env })
  -- `Interpreter.__run_while`: the default result is allocated before the
  -- loop.
  | Req.rWhile fd cond body, st => do
    let (res0, st2) ← allocDefaultValue st fd.returnType
    rec (Req.rWhileLoop fd cond body res0 false) st2
  -- one `while True` iteration of `__run_while`: re-evaluate the condition
  -- (Bool required), stop when false, otherwise run the body in a fresh
  -- block and stop early when it returned.
  | Req.rWhileLoop fd cond body res ret, st => do
    let (ca, st2) ← asAddr (← rec (Req.rExpr cond) st)
    let c := getCell st2 ca
    if c.t ≠ Ty.bool then
      Except.error (RunErr.err ErrKind.typeError "condition must be boolean")
    else
      match c.v with
      | Payload.pbool false => Except.ok (Ans.aRes res ret, st2)
      | Payload.pbool true => do
        let st3 := { st2 with env := enterBlock st2.env }
        let ((res2, ret2), st4) ← asRes (← rec (Req.rStatements fd body) st3)
        let st5 := { st4 with env := exitBlock st4.env }
        if ret2 then Except.ok (Ans.aRes res2 true, st5)
        else rec (Req.rWhileLoop fd cond body res2 ret2) st5
      | _ => Except.error (RunErr.hostCrash "bool-tagged value without boolean payload")
  -- `Interpreter.__run_return`: no expression yields the declared return
  -- type default; a tag mismatch with the declared return type is a
  -- `TypeError`.
  | Req.rReturn fd none, st => do
    let (a, st2) ← allocDefaultValue st fd.returnType
    Except.ok (Ans.aRes a true, st2)
  | Req.rReturn fd (some e), st => do
    let (a, st2) ← asAddr (← rec (Req.rExpr e) st)
    if (getCell st2 a).t ≠ fd.returnType then
      Except.error (RunErr.err ErrKind.typeError "return type mismatch")
    else Except.ok (Ans.aRes a true, st2)

/-- The evaluator at a given fuel: iterate `interpStep`, written with a bare
`Nat.rec` so that concrete runs unfold linearly in the kernel. -/
def interp (ctx : Ctx) (fuel : Nat) : Req → St → Except RunErr (Ans × St) :=
  Nat.rec (fun _ _ => Except.error RunErr.outOfFuel)
    (fun _ ih => interpStep ctx ih) fuel

/-- Python `Interpreter.eval_expr` at the given fuel. -/
def evalExpr (fuel : Nat) (ctx : Ctx) (st : St) (e : Expr) : Except RunErr (Nat × St) := do
  asAddr (← interp ctx fuel (Req.rExpr e) st)

/-- Python `Interpreter.__run_fcall` at the given fuel. -/
def runFcall (fuel : Nat) (ctx : Ctx) (st : St) (name : String) (args : List Expr) :
    Except RunErr (Nat × St) := do
  asAddr (← interp ctx fuel (Req.rFcall name args) st)

/-- Python `Interpreter.__run_method_call` at the given fuel. -/
def runMethodCall (fuel : Nat) (ctx : Ctx) (st : St) (path : String) (args : List Expr) :
    Except RunErr (Nat × St) := do
  asAddr (← interp ctx fuel (Req.rMethodCall path args) st)

/-- Python `Interpreter.__run_assign` at the given fuel. -/
def runAssign (fuel : Nat) (ctx : Ctx) (st : St) (varName : String) (e : Expr) :
    Except RunErr St := do
  let (_, st2) ← interp ctx fuel (Req.rAssign varName e) st
  Except.ok st2

/-- Python `Interpreter.__run_statements` at the given fuel. -/
def runStatements (fuel : Nat) (ctx : Ctx) (st : St) (fd : Func) (stmts : List Stmt) :
    Except RunErr ((Nat × Bool) × St) := do
  asRes (← interp ctx fuel (Req.rStatements fd stmts) st)

/-- Python `Interpreter.run`: build the interface and function tables, then
call `main` with no arguments; the observable result is the output. -/
def runProgram (p : Program) (inputs : List String) (fuel : Nat) :
    Except RunErr (List String) := do
  let itable ← buildInterfaceTableAux [] p.interfaces
  let (ftable, objs) ← buildFunctionTableAux [] [] p.functions
  let ctx : Ctx := ⟨ftable, itable⟩
  let st0 : St := ⟨[], [], objs, [], [], inputs⟩
  let (_, st1) ← interp ctx fuel (Req.rFcall "main" []) st0
  Except.ok st1.output

/-! ### Concrete programs and states used by the claim theorems -/

/-- The reference-parameter example program exactly as the spec writes it:
`def bump(&xi){ xi = xi + 1; } def main(){ var ti; ti = 5; bump(ti);
print(ti); }`.  The function name `bump` ends in `p`, which is not a type
letter. -/
def bumpProgram : Program :=
  ⟨[], [⟨"bump", [("xi", true)],
         [Stmt.assign "xi" (Expr.binop "+" (Expr.qname "xi") (Expr.intLit 1))]⟩,
        ⟨"main", [],
         [Stmt.varDecl "ti",
          Stmt.assign "ti" (Expr.intLit 5),
          Stmt.fcallStmt "bump" [Expr.qname "ti"],
          Stmt.fcallStmt "print" [Expr.qname "ti"]]⟩]⟩

/-- The reference-parameter example with the callee renamed to the valid
Void-returning name `bumpv`. -/
def bumpvProgram : Program :=
  ⟨[], [⟨"bumpv", [("xi", true)],
         [Stmt.assign "xi" (Expr.binop "+" (Expr.qname "xi") (Expr.intLit 1))]⟩,
        ⟨"main", [],
         [Stmt.varDecl "ti",
          Stmt.assign "ti" (Expr.intLit 5),
          Stmt.fcallStmt "bumpv" [Expr.qname "ti"],
          Stmt.fcallStmt "print" [Expr.qname "ti"]]⟩]⟩

/-- `def main(){ var ao; ao.mf(); }` — a single-segment method call whose
root variable holds the nil Object it was initialised to. -/
def nilMethodProgram : Program :=
  ⟨[], [⟨"main", [], [Stmt.varDecl "ao", Stmt.fcallStmt "ao.mf" []]⟩]⟩

/-- `def main(){ var ao; ao.bo.mf(); }` — the nil root is now a strictly
intermediate segment of the method path. -/
def nilMethodNestedProgram : Program :=
  ⟨[], [⟨"main", [], [Stmt.varDecl "ao", Stmt.fcallStmt "ao.bo.mf" []]⟩]⟩

/-- `def main(){ var ao; print(ao.xi); }` — a dotted read through a nil
root. -/
def nilFieldReadProgram : Program :=
  ⟨[], [⟨"main", [], [Stmt.varDecl "ao", Stmt.fcallStmt "print" [Expr.qname "ao.xi"]]⟩]⟩

/-- `def main(){ var xi; var xi; }` — function-scope redefinition across two
statements. -/
def redefProgram : Program :=
  ⟨[], [⟨"main", [], [Stmt.varDecl "xi", Stmt.varDecl "xi"]⟩]⟩

/-- A block-scoped shadowing program: `xi` is 1 at function scope, a nested
block defines its own `xi`, sets it to 2 and prints it, and afterwards the
outer `xi` is printed again. -/
def shadowProgram : Program :=
  ⟨[], [⟨"main", [],
         [Stmt.varDecl "xi",
          Stmt.assign "xi" (Expr.intLit 1),
          Stmt.ifStmt (Expr.boolLit true)
            [Stmt.bvarDecl "xi",
             Stmt.assign "xi" (Expr.intLit 2),
             Stmt.fcallStmt "print" [Expr.qname "xi"]] [],
          Stmt.fcallStmt "print" [Expr.qname "xi"]]⟩]⟩

/-- State with one variable `ao` at cell 0 holding the object whose field
dictionary (dict 0) maps `xi` to cell 1 (payload 3); cell 2 holds the
integer 7 about to be assigned. -/
def aliasSt : St :=
  ⟨[⟨Ty.obj, Payload.pobj 0⟩, ⟨Ty.int, Payload.pint 3⟩, ⟨Ty.int, Payload.pint 7⟩],
   [[("xi", 1)]], [], [⟨[("ao", 0)], []⟩], [], []⟩

/-- Empty tables for component-level runs. -/
def emptyCtx : Ctx :=
  ⟨[], []⟩

/-- An interface `P` requiring a single integer field `xi`. -/
def ifaceP : Interface :=
  ⟨"P", [("xi", Ty.int)], []⟩

/-- Table holding just `ifaceP`. -/
def ctxP : Ctx :=
  ⟨[], [("P", ifaceP)]⟩

/-- State with a variable `aP` at cell 0 (a nil object of interface type)
and, at cell 1, a non-nil object whose field dictionary (dict 0) is empty —
it is missing the field `xi` required by `P`. -/
def missingFieldSt : St :=
  ⟨[⟨Ty.obj, Payload.pnone⟩, ⟨Ty.obj, Payload.pobj 0⟩], [[]], [],
   [⟨[("aP", 0)], []⟩], [], []⟩

end Brewin

open Brewin

/-! ### Helper lemmas -/

theorem getCell_append (st : St) (c : Value) (i : Nat) (h : i < st.cells.length) :
    getCell { st with cells := st.cells ++ [c] } i = getCell st i := by
  simp only [getCell, List.getD_append _ _ _ _ h]

theorem getCell_alloc_self (st : St) (c : Value) :
    getCell (allocCell st c).2 (allocCell st c).1 = c := by
  simp [getCell, allocCell, List.getD_eq_getElem?_getD, List.getElem?_append]

theorem getCell_set_ne (st : St) (a : Nat) (c : Value) (i : Nat) (h : a ≠ i) :
    getCell (setCell st a c) i = getCell st i := by
  simp [getCell, setCell, List.getD_eq_getElem?_getD, List.getElem?_set_ne h]

theorem cloneWrapper_eq (c : Value) : cloneWrapper c = c := by
  unfold cloneWrapper
  split <;> rfl

theorem fdiv_bounds_pos (a b : Int) (h : 0 < b) :
    b * (a.fdiv b) ≤ a ∧ a < b * (a.fdiv b + 1) := by
  have h1 := Int.fdiv_add_fmod a b
  have h2 := Int.fmod_nonneg' a h
  have h3 := Int.fmod_lt_of_pos a h
  have h4 : b * (a.fdiv b + 1) = b * a.fdiv b + b := by ring
  constructor <;> omega

theorem fdiv_bounds_neg (a b : Int) (h : b < 0) :
    a ≤ b * (a.fdiv b) ∧ b * (a.fdiv b + 1) < a := by
  rcases b with n | n
  · exfalso
    simp only [Int.ofNat_eq_natCast] at h
    omega
  · rcases a with m | m
    · rcases m with _ | k
      · simp only [Int.fdiv, Int.negSucc_eq, Int.ofNat_eq_natCast]
        constructor
        · simp
        · nlinarith [Int.natCast_nonneg n]
      · have hd := Nat.div_add_mod k (n + 1)
        have hdz : ((n : Int) + 1) * (k / (n + 1) : Nat) + ((k % (n + 1) : Nat) : Int) = k := by
          exact_mod_cast hd
        have hmz : ((k % (n + 1) : Nat) : Int) < (n : Int) + 1 := by
          exact_mod_cast Nat.mod_lt k (show 0 < n + 1 by omega)
        have hrz : (0 : Int) ≤ ((k % (n + 1) : Nat) : Int) := by positivity
        simp only [Int.fdiv, Int.negSucc_eq, Int.ofNat_eq_natCast, Nat.succ_eq_add_one,
          Nat.cast_add, Nat.cast_one]
        constructor <;> nlinarith [hdz, hmz, hrz]
    · have hd := Nat.div_add_mod (m + 1) (n + 1)
      have hdz : ((n : Int) + 1) * ((m + 1) / (n + 1) : Nat)
          + (((m + 1) % (n + 1) : Nat) : Int) = (m : Int) + 1 := by
        exact_mod_cast hd
      have hmz : (((m + 1) % (n + 1) : Nat) : Int) < (n : Int) + 1 := by
        exact_mod_cast Nat.mod_lt (m + 1) (show 0 < n + 1 by omega)
      have hrz : (0 : Int) ≤ (((m + 1) % (n + 1) : Nat) : Int) := by positivity
      simp only [Int.fdiv, Int.negSucc_eq, Int.ofNat_eq_natCast, Nat.succ_eq_add_one,
        Nat.cast_add, Nat.cast_one]
      constructor <;> nlinarith [hdz, hmz, hrz]

theorem fdiv_eq_floor (a b : Int) (h : b ≠ 0) :
    ⌊(a : ℚ) / (b : ℚ)⌋ = a.fdiv b := by
  rw [Int.floor_eq_iff]
  rcases lt_or_gt_of_ne h with hneg | hpos
  · obtain ⟨h1, h2⟩ := fdiv_bounds_neg a b hneg
    have hbq : (b : ℚ) < 0 := by exact_mod_cast hneg
    have h1q : (a : ℚ) ≤ (b : ℚ) * ((a.fdiv b : Int) : ℚ) := by exact_mod_cast h1
    have h2q : (b : ℚ) * (((a.fdiv b : Int) : ℚ) + 1) < (a : ℚ) := by exact_mod_cast h2
    constructor
    · rw [le_div_iff_of_neg hbq]
      nlinarith
    · rw [div_lt_iff_of_neg hbq]
      nlinarith
  · obtain ⟨h1, h2⟩ := fdiv_bounds_pos a b hpos
    have hbq : (0 : ℚ) < (b : ℚ) := by exact_mod_cast hpos
    have h1q : (b : ℚ) * ((a.fdiv b : Int) : ℚ) ≤ (a : ℚ) := by exact_mod_cast h1
    have h2q : (a : ℚ) < (b : ℚ) * (((a.fdiv b : Int) : ℚ) + 1) := by exact_mod_cast h2
    constructor
    · rw [le_div_iff₀ hbq]
      nlinarith
    · rw [div_lt_iff₀ hbq]
      nlinarith

/-! ### Claim theorems -/

/-- C8: for Int-tagged operands `a` and `b` with `b ≠ 0`, the `/` operator
of `__eval_binary_op` yields `Int.fdiv a b`, which is the floor of the
rational quotient — truncation toward negative infinity; in particular
`-7 / 2` evaluates to `-4` and not `-3`. -/
theorem C8_division_floors (a b : Int) (h : b ≠ 0) :
    evalBinop "/" ⟨Ty.int, Payload.pint a⟩ ⟨Ty.int, Payload.pint b⟩
        = Except.ok ⟨Ty.int, Payload.pint (Int.fdiv a b)⟩
      ∧ Int.fdiv a b = ⌊(a : ℚ) / (b : ℚ)⌋
      ∧ evalBinop "/" ⟨Ty.int, Payload.pint (-7)⟩ ⟨Ty.int, Payload.pint 2⟩
          = Except.ok ⟨Ty.int, Payload.pint (-4)⟩
      ∧ Int.fdiv (-7) 2 = -4 ∧ Int.fdiv (-7) 2 ≠ -3 := by
  refine ⟨?_, (fdiv_eq_floor a b h).symm, by rfl, by decide, by decide⟩
  simp [evalBinop, h]

/-- Witness for C8 at `a = -7`, `b = 2`. -/
theorem C8_division_floors_witness :
    evalBinop "/" ⟨Ty.int, Payload.pint (-7)⟩ ⟨Ty.int, Payload.pint 2⟩
      = Except.ok ⟨Ty.int, Payload.pint (Int.fdiv (-7) 2)⟩ :=
  (C8_division_floors (-7) 2 (by decide)).1

/-- C3: equality semantics of `__eval_binary_op`: two values whose payloads
are both nil compare equal under `==` (and unequal under `!=`) regardless of
their tags; a Function value holding an actual descriptor compared against a
nil Object is always unequal, in either operand order; Object-vs-Object and
Function-vs-Function comparisons are decided by identity of the shared
payload (heap address), never by structural content.  (A nil Function
against a nil Object falls under the both-nil rule.) -/
theorem C3_equality_semantics :
    (∀ tl tr : Ty,
        evalBinop "==" ⟨tl, Payload.pnone⟩ ⟨tr, Payload.pnone⟩
            = Except.ok ⟨Ty.bool, Payload.pbool true⟩
      ∧ evalBinop "!=" ⟨tl, Payload.pnone⟩ ⟨tr, Payload.pnone⟩
            = Except.ok ⟨Ty.bool, Payload.pbool false⟩)
  ∧ (∀ f : Nat,
        evalBinop "==" ⟨Ty.func, Payload.pfunc f⟩ ⟨Ty.obj, Payload.pnone⟩
            = Except.ok ⟨Ty.bool, Payload.pbool false⟩
      ∧ evalBinop "!=" ⟨Ty.func, Payload.pfunc f⟩ ⟨Ty.obj, Payload.pnone⟩
            = Except.ok ⟨Ty.bool, Payload.pbool true⟩
      ∧ evalBinop "==" ⟨Ty.obj, Payload.pnone⟩ ⟨Ty.func, Payload.pfunc f⟩
            = Except.ok ⟨Ty.bool, Payload.pbool false⟩
      ∧ evalBinop "!=" ⟨Ty.obj, Payload.pnone⟩ ⟨Ty.func, Payload.pfunc f⟩
            = Except.ok ⟨Ty.bool, Payload.pbool true⟩)
  ∧ (∀ d1 d2 : Nat,
        evalBinop "==" ⟨Ty.obj, Payload.pobj d1⟩ ⟨Ty.obj, Payload.pobj d2⟩
            = Except.ok ⟨Ty.bool, Payload.pbool (d1 == d2)⟩
      ∧ evalBinop "!=" ⟨Ty.obj, Payload.pobj d1⟩ ⟨Ty.obj, Payload.pobj d2⟩
            = Except.ok ⟨Ty.bool, Payload.pbool (!(d1 == d2))⟩)
  ∧ (∀ f1 f2 : Nat,
        evalBinop "==" ⟨Ty.func, Payload.pfunc f1⟩ ⟨Ty.func, Payload.pfunc f2⟩
            = Except.ok ⟨Ty.bool, Payload.pbool (f1 == f2)⟩
      ∧ evalBinop "!=" ⟨Ty.func, Payload.pfunc f1⟩ ⟨Ty.func, Payload.pfunc f2⟩
            = Except.ok ⟨Ty.bool, Payload.pbool (!(f1 == f2))⟩) := by
  refine ⟨fun tl tr => ⟨?_, ?_⟩, fun f => ⟨?_, ?_, ?_, ?_⟩,
    fun d1 d2 => ⟨?_, ?_⟩, fun f1 f2 => ⟨?_, ?_⟩⟩ <;>
    simp [evalBinop, payloadIs, payloadEq]

/-- C4: ordinary-call overload resolution is exact-match only on the
(name, runtime-argument-signature) key: a lookup hit resolves to exactly
that descriptor (and only lookup hits resolve); with no exact match the run
fails with `TypeError` when some declared function shares the bare name
under a different signature and with `NameError` when none does.  No
coercion exists: success is equivalent to the exact key being present. -/
theorem C4_overload_resolution (ctx : Ctx) (name sig : String) :
    (∀ f, lookupFunc ctx name sig = some f → resolveOrdinary ctx name sig = Except.ok f)
  ∧ (∀ f, resolveOrdinary ctx name sig = Except.ok f → lookupFunc ctx name sig = some f)
  ∧ (lookupFunc ctx name sig = none → funcsNamed ctx name ≠ [] →
      resolveOrdinary ctx name sig
        = Except.error (RunErr.err ErrKind.typeError "argument type mismatch"))
  ∧ (lookupFunc ctx name sig = none → funcsNamed ctx name = [] →
      resolveOrdinary ctx name sig
        = Except.error (RunErr.err ErrKind.nameError "function not found")) := by
  cases h : lookupFunc ctx name sig with
  | some g =>
    refine ⟨fun f hf => ?_, fun f hf => ?_,
      fun hn _ => Option.noConfusion hn, fun hn _ => Option.noConfusion hn⟩
    · obtain rfl : g = f := by injection hf
      simp [resolveOrdinary, h]
    · simp only [resolveOrdinary, h] at hf
      obtain rfl : g = f := by injection hf
      rfl
  | none =>
    refine ⟨fun f hf => Option.noConfusion hf, fun f hf => ?_, fun _ hne => ?_, fun _ he => ?_⟩
    · by_cases he : funcsNamed ctx name = [] <;> simp [resolveOrdinary, h, he] at hf
    · simp [resolveOrdinary, h, hne]
    · simp [resolveOrdinary, h, he]

/-- Witness for C4 on a table declaring `fv` under signatures `i` and
`ii`: an exact match resolves, a wrong signature is `TypeError`, an unknown
name is `NameError`. -/
theorem C4_overload_resolution_witness :
    resolveOrdinary ⟨[(("fv", "i"), 0), (("fv", "ii"), 1)], []⟩ "fv" "i" = Except.ok 0
  ∧ resolveOrdinary ⟨[(("fv", "i"), 0), (("fv", "ii"), 1)], []⟩ "fv" "s"
      = Except.error (RunErr.err ErrKind.typeError "argument type mismatch")
  ∧ resolveOrdinary ⟨[(("fv", "i"), 0), (("fv", "ii"), 1)], []⟩ "gv" ""
      = Except.error (RunErr.err ErrKind.nameError "function not found") :=
  ⟨(C4_overload_resolution _ "fv" "i").1 0 (by rfl),
   (C4_overload_resolution _ "fv" "s").2.2.1 (by rfl) (by decide),
   (C4_overload_resolution _ "gv" "").2.2.2 (by rfl) (by rfl)⟩

/-- C2: evaluating the spec's singled-out example — a single-segment method
call `ao.mf()` on a nil `ao` — does not produce a `FaultError`: the
interpreter skips the nil check for the final receiver of a method path
(the check sits in a loop over `suffix_name[:-1]` only) and instead crashes
in the host on `"mf" in None`.  The same nil object one segment deeper in a
method path, and a dotted read through a nil root, do fail with
`FaultError` exactly as the claim demands. -/
theorem C2_nil_dereference_behaviour :
    runProgram nilMethodProgram [] 64
        = Except.error (RunErr.hostCrash "argument is not iterable")
  ∧ runProgram nilMethodNestedProgram [] 64
        = Except.error (RunErr.err ErrKind.faultError "nil reference access")
  ∧ runProgram nilFieldReadProgram [] 64
        = Except.error (RunErr.err ErrKind.faultError "nil reference access") :=
  ⟨rfl, rfl, rfl⟩

/-- C1 counterexample: the claim's program, with its callee named `bump`,
never reaches `main`: `bump` ends in `p`, which is not a type letter, so
function-table construction fails with a `TypeError` and the program cannot
output `6`. -/
theorem C1_bump_counterexample :
    runProgram bumpProgram [] 64 = Except.error (RunErr.err ErrKind.typeError "")
  ∧ runProgram bumpProgram [] 64 ≠ Except.ok ["6"] :=
  ⟨rfl, fun hc => Except.noConfusion hc⟩

/-- C1 (amended: the claim example must use a valid type-letter name for
the callee, e.g. `bumpv`; `bump` itself is rejected — see
`C1_bump_counterexample`): a by-reference formal binds exactly the wrapper
produced by the actual argument (`__clone_for_passing` returns it
unchanged), a single-segment assignment mutates the payload of the wrapper
the variable denotes in place (same address, new content), and the renamed
example program prints `6`. -/
theorem C1_reference_parameters :
    (∀ (st : St) (a : Nat), cloneForPassing st a true = (a, st))
  ∧ (∀ (ctx : Ctx) (st : St) (n : String) (rvAddr a : Nat),
      envVarExists st.env n = true →
      envGet st.env n = some a →
      getInterfaceName n = none →
      ((getCell st rvAddr).v = Payload.pnone →
        Ty.getType n = Ty.obj ∨ Ty.getType n = Ty.func) →
      ((getCell st rvAddr).v ≠ Payload.pnone →
        Ty.getType n = (getCell st rvAddr).t) →
      assignToPath ctx st [n] rvAddr = Except.ok (setCell st a (getCell st rvAddr)))
  ∧ runProgram bumpvProgram [] 64 = Except.ok ["6"] := by
  refine ⟨fun st a => rfl, ?_, by rfl⟩
  intro ctx st n rvAddr a hex hget hif hnil htag
  by_cases hv : (getCell st rvAddr).v = Payload.pnone
  · rcases hnil hv with h | h <;>
      (simp only [assignToPath, hex, List.getLastD]; simp [hif, hv, h, hget]; rfl)
  · simp only [assignToPath, hex, List.getLastD]
    simp [hif, hv, htag hv, hget]
    rfl

/-- Witness for C1 on a two-cell state: assigning cell 1 (holding 6) to the
variable `xi` bound to cell 0 overwrites cell 0 in place. -/
theorem C1_reference_parameters_witness :
    assignToPath emptyCtx
        ⟨[⟨Ty.int, Payload.pint 5⟩, ⟨Ty.int, Payload.pint 6⟩], [], [], [⟨[("xi", 0)], []⟩], [], []⟩
        ["xi"] 1
      = Except.ok (setCell
          ⟨[⟨Ty.int, Payload.pint 5⟩, ⟨Ty.int, Payload.pint 6⟩], [], [], [⟨[("xi", 0)], []⟩], [], []⟩ 0
          (getCell
            ⟨[⟨Ty.int, Payload.pint 5⟩, ⟨Ty.int, Payload.pint 6⟩], [], [], [⟨[("xi", 0)], []⟩], [], []⟩ 1)) :=
  C1_reference_parameters.2.1 emptyCtx
    ⟨[⟨Ty.int, Payload.pint 5⟩, ⟨Ty.int, Payload.pint 6⟩], [], [], [⟨[("xi", 0)], []⟩], [], []⟩
    "xi" 1 0 (by rfl) (by rfl) (by rfl) (by decide) (by decide)

/-- C10: evaluating a single-segment name in expression position consults
the function table before any variable lookup: with exactly one declared
function of that name the result is a fresh Function value wrapping that
descriptor, for any state — in particular even when a variable of the same
name is in scope; with two or more declared overloads it is a `NameError`,
again for any state. -/
theorem C10_first_class_function_names (ctx : Ctx) (st : St) (name : String)
    (hsingle : splitDots name = [name]) :
    (∀ e, funcsNamed ctx name = [e] →
        getVarValue ctx st name = Except.ok (allocCell st ⟨Ty.func, Payload.pfunc e.2⟩))
  ∧ (∀ e1 e2 rest, funcsNamed ctx name = e1 :: e2 :: rest →
        getVarValue ctx st name
          = Except.error (RunErr.err ErrKind.nameError
              "ambiguous function-value assignments for overloaded names")) := by
  constructor
  · intro e he
    simp [getVarValue, hsingle, he]
  · intro e1 e2 rest he
    simp [getVarValue, hsingle, he]

/-- Witness for C10 with a variable `fv` in scope: one table entry wins
over the variable; two table entries are ambiguous. -/
theorem C10_first_class_function_names_witness :
    getVarValue ⟨[(("fv", "i"), 42)], []⟩
        ⟨[⟨Ty.bool, Payload.pbool true⟩], [], [], [⟨[("fv", 0)], []⟩], [], []⟩ "fv"
      = Except.ok (allocCell
          ⟨[⟨Ty.bool, Payload.pbool true⟩], [], [], [⟨[("fv", 0)], []⟩], [], []⟩
          ⟨Ty.func, Payload.pfunc 42⟩)
  ∧ getVarValue ⟨[(("fv", "i"), 42), (("fv", "s"), 43)], []⟩
        ⟨[⟨Ty.bool, Payload.pbool true⟩], [], [], [⟨[("fv", 0)], []⟩], [], []⟩ "fv"
      = Except.error (RunErr.err ErrKind.nameError
          "ambiguous function-value assignments for overloaded names") :=
  ⟨(C10_first_class_function_names ⟨[(("fv", "i"), 42)], []⟩ _ "fv" (by rfl)).1
      (("fv", "i"), 42) (by rfl),
   (C10_first_class_function_names ⟨[(("fv", "i"), 42), (("fv", "s"), 43)], []⟩ _ "fv" (by rfl)).2
      (("fv", "i"), 42) (("fv", "s"), 43) [] (by rfl)⟩

/-- Monad reduction helper: binding an `Except.ok` applies the
continuation. -/
theorem except_bind_ok {α β : Type} (a : α) (f : α → Except RunErr β) :
    (Except.ok a >>= f) = f a := rfl

/-- Monad reduction helper: binding an `Except.error` propagates it. -/
theorem except_bind_error {α β : Type} (e : RunErr) (f : α → Except RunErr β) :
    ((Except.error e : Except RunErr α) >>= f) = Except.error e := rfl

/-- C9: within the current frame, a function-scoped definition of a name
already present at function scope fails with `NameError` (regardless of
which statement introduced it); a block-scoped definition inside a freshly
entered block always succeeds even when the name is visible in an enclosing
block, binds the name to a fresh cell that shadows the outer one, and after
the block exits the outer binding is visible again.  The two concrete
programs exercise both behaviours end to end. -/
theorem C9_scoping :
    (∀ (st : St) (f : Frame) (r : Env) (n : String),
      st.env = f :: r →
      (f.funcScope.lookup n).isSome = true →
      ¬(Ty.getType n = Ty.error ∨ Ty.getType n = Ty.void) →
      runVardef st n false
        = Except.error (RunErr.err ErrKind.nameError "variable already defined"))
  ∧ (∀ (st : St) (f : Frame) (r : Env) (n : String) (a : Nat),
      st.env = f :: r →
      envGet st.env n = some a →
      ¬(Ty.getType n = Ty.error ∨ Ty.getType n = Ty.void) →
      ∃ st2, runVardef { st with env := enterBlock st.env } n true = Except.ok st2
        ∧ envGet st2.env n = some st.cells.length
        ∧ (a < st.cells.length → envGet st2.env n ≠ some a)
        ∧ envGet (exitBlock st2.env) n = some a)
  ∧ runProgram redefProgram [] 64
      = Except.error (RunErr.err ErrKind.nameError "variable already defined")
  ∧ runProgram shadowProgram [] 64 = Except.ok ["2", "1"] := by
  refine ⟨?_, ?_, by rfl, by rfl⟩
  · intro st f r n henv hlk hty
    have hvt : ¬(Ty.getType n = Ty.error ∨ Ty.getType n = Ty.void) := hty
    rcases h : Ty.getType n with _ | _ | _ | _ | _ | _ | _ <;>
      simp [h] at hvt ⊢ <;>
      simp [runVardef, allocDefaultValue, defaultPayload, h, henv, envFdef, Frame.fdef, hlk,
        allocCell, except_bind_ok]
  · intro st f r n a henv hget hty
    have hne : Ty.getType n ≠ Ty.error := fun hc => hty (Or.inl hc)
    have hnv : Ty.getType n ≠ Ty.void := fun hc => hty (Or.inr hc)
    obtain ⟨p, hp⟩ : ∃ p, defaultPayload (Ty.getType n) = some p := by
      rcases h : Ty.getType n
      case error => exact absurd h hne
      case void => exact absurd h hnv
      all_goals exact ⟨_, rfl⟩
    have hmain : runVardef { st with env := enterBlock st.env } n true
        = Except.ok { st with
            cells := st.cells ++ [(⟨Ty.getType n, p⟩ : Value)],
            env := { f with blocks := [(n, st.cells.length)] :: f.blocks } :: r } := by
      simp [runVardef, hty, allocDefaultValue, hp, henv, enterBlock, envBdef, Frame.bdef,
        allocCell, except_bind_ok]
    refine ⟨_, hmain, ?_, ?_, ?_⟩
    · simp [envGet, Frame.lookupVar, getBlocks]
    · intro hlt heq
      have h2 : envGet ({ st with
          cells := st.cells ++ [(⟨Ty.getType n, p⟩ : Value)],
          env := { f with blocks := [(n, st.cells.length)] :: f.blocks } :: r } : St).env n
          = some st.cells.length := by
        simp [envGet, Frame.lookupVar, getBlocks]
      rw [h2] at heq
      have : st.cells.length = a := by injection heq
      omega
    · have h3 := hget
      rw [henv] at h3
      simpa [exitBlock, envGet] using h3

/-- Witness for C9 on a one-frame state binding `xi` at function scope. -/
theorem C9_scoping_witness :
    runVardef ⟨[⟨Ty.int, Payload.pint 1⟩], [], [], [⟨[("xi", 0)], []⟩], [], []⟩ "xi" false
      = Except.error (RunErr.err ErrKind.nameError "variable already defined")
  ∧ (∃ st2, runVardef { (⟨[⟨Ty.int, Payload.pint 1⟩], [], [], [⟨[("xi", 0)], []⟩], [], []⟩ : St) with
        env := enterBlock [⟨[("xi", 0)], []⟩] } "xi" true = Except.ok st2
      ∧ envGet st2.env "xi" = some 1
      ∧ (0 < 1 → envGet st2.env "xi" ≠ some 0)
      ∧ envGet (exitBlock st2.env) "xi" = some 0) :=
  ⟨C9_scoping.1 _ ⟨[("xi", 0)], []⟩ [] "xi" rfl rfl (by decide),
   C9_scoping.2.1 _ ⟨[("xi", 0)], []⟩ [] "xi" 0 rfl rfl (by decide)⟩

/-- C7 counterexample: assigning `7` through the dotted path `ao.xi` on a
state whose field `xi` is the cell at address 1 (holding 3) leaves cell 1
holding 3 and rebinds the dictionary entry to the fresh cell 3 — the
existing field cell's payload is NOT mutated, so an alias of cell 1 does
not observe the assignment, contrary to the claim's
"overwritten in place / identity preserved". -/
theorem C7_in_place_counterexample :
    assignToPath emptyCtx aliasSt ["ao", "xi"] 2
      = Except.ok ⟨[⟨Ty.obj, Payload.pobj 0⟩, ⟨Ty.int, Payload.pint 3⟩, ⟨Ty.int, Payload.pint 7⟩,
                    ⟨Ty.int, Payload.pint 7⟩], [[("xi", 3)]], [], [⟨[("ao", 0)], []⟩], [], []⟩
  ∧ getCell ⟨[⟨Ty.obj, Payload.pobj 0⟩, ⟨Ty.int, Payload.pint 3⟩, ⟨Ty.int, Payload.pint 7⟩,
              ⟨Ty.int, Payload.pint 7⟩], [[("xi", 3)]], [], [⟨[("ao", 0)], []⟩], [], []⟩ 1
      = ⟨Ty.int, Payload.pint 3⟩
  ∧ getCell ⟨[⟨Ty.obj, Payload.pobj 0⟩, ⟨Ty.int, Payload.pint 3⟩, ⟨Ty.int, Payload.pint 7⟩,
              ⟨Ty.int, Payload.pint 7⟩], [[("xi", 3)]], [], [⟨[("ao", 0)], []⟩], [], []⟩ 1
      ≠ ⟨Ty.int, Payload.pint 7⟩
  ∧ (getDict ⟨[⟨Ty.obj, Payload.pobj 0⟩, ⟨Ty.int, Payload.pint 3⟩, ⟨Ty.int, Payload.pint 7⟩,
               ⟨Ty.int, Payload.pint 7⟩], [[("xi", 3)]], [], [⟨[("ao", 0)], []⟩], [], []⟩ 0).lookup "xi"
      = some 3
  ∧ (3 : Nat) ≠ 1 :=
  ⟨rfl, rfl, by decide, rfl, by decide⟩

/-- C7 (amended: the terminal field's dictionary entry is rebound, not
mutated in place): the dotted-path assignment walks all but the final
segment, the terminal segment's declared type must accept the right-hand
value (checked before the walk), and then the terminal dictionary entry is
set to the evaluated wrapper itself for an Object right-hand value and to a
freshly allocated wrapper otherwise; every pre-existing cell — in
particular the previously stored field cell and any alias of it — is left
unchanged.  When the declared type does not accept the right-hand value —
a nil payload assigned to a target declared neither Object nor Function, or
a non-nil payload whose tag differs from the target's declared type — the
assignment fails with the `TypeError` "type mismatch in assignment" (last
two conjuncts, quantified over their own state and path). -/
theorem C7_dotted_assignment (ctx : Ctx) (st : St) (p0 : String) (mid : List String)
    (lastSeg : String) (rvAddr a0 aMid d : Nat)
    (hex : envVarExists st.env p0 = true)
    (hget : envGet st.env p0 = some a0)
    (hif : getInterfaceName lastSeg = none)
    (hnil : (getCell st rvAddr).v = Payload.pnone →
        Ty.getType lastSeg = Ty.obj ∨ Ty.getType lastSeg = Ty.func)
    (htag : (getCell st rvAddr).v ≠ Payload.pnone →
        Ty.getType lastSeg = (getCell st rvAddr).t)
    (hroott : (getCell st a0).t = Ty.obj)
    (hrootv : (getCell st a0).v ≠ Payload.pnone)
    (hwalk : walkAssignMid st a0 mid = Except.ok aMid)
    (hmid : (getCell st aMid).v = Payload.pobj d) :
    ((getCell st rvAddr).t = Ty.obj →
        assignToPath ctx st (p0 :: (mid ++ [lastSeg])) rvAddr
          = Except.ok (setDictEntry st d lastSeg rvAddr))
  ∧ ((getCell st rvAddr).t ≠ Ty.obj →
        assignToPath ctx st (p0 :: (mid ++ [lastSeg])) rvAddr
          = Except.ok (setDictEntry
              { st with cells := st.cells ++ [⟨(getCell st rvAddr).t, (getCell st rvAddr).v⟩] }
              d lastSeg st.cells.length))
  ∧ (∀ i, getCell (setDictEntry st d lastSeg rvAddr) i = getCell st i)
  ∧ (∀ i, i < st.cells.length →
        getCell (setDictEntry
            { st with cells := st.cells ++ [⟨(getCell st rvAddr).t, (getCell st rvAddr).v⟩] }
            d lastSeg st.cells.length) i = getCell st i)
  ∧ (∀ (st2 : St) (q0 : String) (qmid : List String) (qlast : String) (rvb : Nat),
        envVarExists st2.env q0 = true →
        getInterfaceName qlast = none →
        (getCell st2 rvb).v = Payload.pnone →
        Ty.getType qlast ≠ Ty.obj →
        Ty.getType qlast ≠ Ty.func →
        assignToPath ctx st2 (q0 :: (qmid ++ [qlast])) rvb
          = Except.error (RunErr.err ErrKind.typeError "type mismatch in assignment"))
  ∧ (∀ (st2 : St) (q0 : String) (qmid : List String) (qlast : String) (rvb : Nat),
        envVarExists st2.env q0 = true →
        getInterfaceName qlast = none →
        (getCell st2 rvb).v ≠ Payload.pnone →
        Ty.getType qlast ≠ (getCell st2 rvb).t →
        assignToPath ctx st2 (q0 :: (qmid ++ [qlast])) rvb
          = Except.error (RunErr.err ErrKind.typeError "type mismatch in assignment")) := by
  have haMid : aMid < st.cells.length := by
    by_contra hc
    have hdef : getCell st aMid = defaultValue := by
      simp only [getCell]
      exact List.getD_eq_default _ _ (le_of_not_lt hc)
    rw [hdef] at hmid
    cases hmid
  have hlast : (p0 :: (mid ++ [lastSeg])).getLast?.getD "" = lastSeg := by
    have hsplit : p0 :: (mid ++ [lastSeg]) = (p0 :: mid) ++ [lastSeg] := by simp
    rw [hsplit, List.getLast?_append]
    rfl
  have hdrop : (mid ++ [lastSeg]).dropLast = mid := by
    simp
  have hg : ∀ c : Value, getCell { st with cells := st.cells ++ [c] } aMid = getCell st aMid :=
    fun c => getCell_append st c aMid haMid
  constructor
  · intro hobj
    by_cases hv : (getCell st rvAddr).v = Payload.pnone
    · rcases hnil hv with h | h <;>
        simp [assignToPath, hex, hlast, hif, hv, h, hget, hroott, hrootv, hdrop, hwalk,
          except_bind_ok, hmid, hobj, payloadSetField]
    · simp [assignToPath, hex, hlast, hif, hv, htag hv, hget, hroott, hrootv, hdrop, hwalk,
        except_bind_ok, hmid, hobj, payloadSetField]
  refine ⟨?_, fun i => rfl, ?_, ?_, ?_⟩
  · intro hnobj
    by_cases hv : (getCell st rvAddr).v = Payload.pnone
    · rcases hnil hv with h | h <;>
        (simp [assignToPath, hex, hlast, hif, hv, h, hget, hroott, hrootv, hdrop, hwalk,
          except_bind_ok, hnobj, payloadSetField, allocCell]) <;>
        (try rw [hg]) <;> simp [hmid, payloadSetField, hv]
    · simp [assignToPath, hex, hlast, hif, hv, htag hv, hget, hroott, hrootv, hdrop, hwalk,
        except_bind_ok, hnobj, payloadSetField, allocCell]
      rw [hg]
      simp [hmid, payloadSetField]
  · intro i hi
    have : getCell (setDictEntry { st with cells := st.cells ++ [⟨(getCell st rvAddr).t, (getCell st rvAddr).v⟩] } d lastSeg st.cells.length) i
        = getCell { st with cells := st.cells ++ [⟨(getCell st rvAddr).t, (getCell st rvAddr).v⟩] } i := rfl
    rw [this]
    exact getCell_append st _ i hi
  · intro st2 q0 qmid qlast rvb hex2 hif2 hv2 hno hnf
    have hlast2 : (q0 :: (qmid ++ [qlast])).getLast?.getD "" = qlast := by
      have hsplit : q0 :: (qmid ++ [qlast]) = (q0 :: qmid) ++ [qlast] := by simp
      rw [hsplit, List.getLast?_append]
      rfl
    simp [assignToPath, hex2, hlast2, hif2, hv2, hno, hnf, except_bind_error]
  · intro st2 q0 qmid qlast rvb hex2 hif2 hv2 hmm
    have hlast2 : (q0 :: (qmid ++ [qlast])).getLast?.getD "" = qlast := by
      have hsplit : q0 :: (qmid ++ [qlast]) = (q0 :: qmid) ++ [qlast] := by simp
      rw [hsplit, List.getLast?_append]
      rfl
    simp [assignToPath, hex2, hlast2, hif2, hv2, hmm, except_bind_error]

/-- Witness for C7 on `aliasSt`: the non-Object branch of the amended
characterisation at the concrete state. -/
theorem C7_dotted_assignment_witness :
    (assignToPath emptyCtx aliasSt ["ao", "xi"] 2
      = Except.ok (setDictEntry
          { aliasSt with cells := aliasSt.cells ++ [⟨Ty.int, Payload.pint 7⟩] } 0 "xi" 3))
  ∧ assignToPath emptyCtx missingFieldSt ["aP", "xi"] 0
      = Except.error (RunErr.err ErrKind.typeError "type mismatch in assignment") :=
  ⟨(C7_dotted_assignment emptyCtx aliasSt "ao" [] "xi" 2 0 0 0 rfl rfl rfl (by decide) (by decide)
      rfl (by decide) rfl rfl).2.1 (by decide),
   (C7_dotted_assignment emptyCtx aliasSt "ao" [] "xi" 2 0 0 0 rfl rfl rfl (by decide) (by decide)
      rfl (by decide) rfl rfl).2.2.2.2.1 missingFieldSt "aP" [] "xi" 0 rfl rfl rfl (by decide)
      (by decide)⟩

/-- The field-variable loop on a dict payload never raises: it always
returns a boolean verdict. -/
theorem checkFieldVars_isOk (st : St) (d : Nat) (l : List (String × Ty)) :
    ∃ b, checkFieldVars st (Payload.pobj d) l = Except.ok b := by
  induction l with
  | nil => exact ⟨true, rfl⟩
  | cons p rest ih =>
    obtain ⟨fn, ft⟩ := p
    cases hl : (getDict st d).lookup fn with
    | none => exact ⟨false, by simp [checkFieldVars, payloadContains, hl, except_bind_ok]⟩
    | some a =>
      by_cases htv : (getCell st a).t = ft
      · obtain ⟨b, hb⟩ := ih
        exact ⟨b, by simp [checkFieldVars, payloadContains, payloadGetField, hl, htv,
          except_bind_ok, hb]⟩
      · exact ⟨false, by simp [checkFieldVars, payloadContains, payloadGetField, hl, htv,
          except_bind_ok]⟩

/-- Characterisation of the field-variable loop: it accepts exactly when
every required field is present with exactly the required runtime tag. -/
theorem checkFieldVars_ok_iff (st : St) (d : Nat) (l : List (String × Ty)) :
    checkFieldVars st (Payload.pobj d) l = Except.ok true ↔
      ∀ p ∈ l, ∃ a, (getDict st d).lookup p.1 = some a ∧ (getCell st a).t = p.2 := by
  induction l with
  | nil => simp [checkFieldVars]
  | cons p rest ih =>
    obtain ⟨fn, ft⟩ := p
    cases hl : (getDict st d).lookup fn with
    | none =>
      simp [checkFieldVars, payloadContains, hl, except_bind_ok]
    | some a =>
      by_cases htv : (getCell st a).t = ft
      · have hstep : checkFieldVars st (Payload.pobj d) ((fn, ft) :: rest)
            = checkFieldVars st (Payload.pobj d) rest := by
          simp [checkFieldVars, payloadContains, payloadGetField, hl, htv, except_bind_ok]
        rw [hstep, ih]
        simp only [List.mem_cons, forall_eq_or_imp]
        constructor
        · intro h
          exact ⟨⟨a, hl, htv⟩, h⟩
        · exact fun h => h.2
      · have hstep : checkFieldVars st (Payload.pobj d) ((fn, ft) :: rest)
            = Except.ok false := by
          simp [checkFieldVars, payloadContains, payloadGetField, hl, htv, except_bind_ok]
        rw [hstep]
        constructor
        · intro h
          cases h
        · intro h
          obtain ⟨a2, ha2, ht2⟩ := h (fn, ft) (List.mem_cons_self _ _)
          rw [hl] at ha2
          injection ha2 with ha2
          exact absurd (ha2 ▸ ht2) htv

/-- Characterisation of the per-parameter signature loop: it accepts
exactly when formals and recorded signature entries correspond pairwise in
order on declared type and ref flag (which forces equal counts). -/
theorem sigEntriesMatch_iff (fs : List (String × Bool)) (ss : List (Ty × Bool)) :
    sigEntriesMatch fs ss = true ↔
      List.Forall₂ (fun p q => Ty.getType p.1 = q.1 ∧ p.2 = q.2) fs ss := by
  induction fs generalizing ss with
  | nil =>
    cases ss with
    | nil => simp [sigEntriesMatch]
    | cons q qs => simp [sigEntriesMatch]
  | cons p ps ih =>
    cases ss with
    | nil => simp [sigEntriesMatch]
    | cons q qs =>
      obtain ⟨n, r⟩ := p
      obtain ⟨ft, fr⟩ := q
      simp [sigEntriesMatch, ih, List.forall₂_cons, and_assoc]

/-- Characterisation of `__check_function_signatures`: it accepts exactly
when the payload is an actual descriptor whose formals match the recorded
signature pairwise (a nil payload crashes and never accepts). -/
theorem checkFunctionSignatures_ok_iff (st : St) (v : Payload) (s : List (Ty × Bool)) :
    checkFunctionSignatures st v s = Except.ok true ↔
      ∃ fid, v = Payload.pfunc fid ∧
        List.Forall₂ (fun p q => Ty.getType p.1 = q.1 ∧ p.2 = q.2) (getFunc st fid).formalArgs s := by
  cases v with
  | pfunc fid =>
    by_cases hlen : (getFunc st fid).formalArgs.length = s.length
    · rw [show checkFunctionSignatures st (Payload.pfunc fid) s
          = Except.ok (sigEntriesMatch (getFunc st fid).formalArgs s) from by
        simp [checkFunctionSignatures, hlen]]
      constructor
      · intro h
        refine ⟨fid, rfl, (sigEntriesMatch_iff _ _).mp ?_⟩
        injection h
      · rintro ⟨fid2, hf, hfa⟩
        injection hf with hf
        subst hf
        simp [(sigEntriesMatch_iff _ _).mpr hfa]
    · rw [show checkFunctionSignatures st (Payload.pfunc fid) s = Except.ok false from by
        simp [checkFunctionSignatures, hlen]]
      constructor
      · intro h
        cases h
      · rintro ⟨fid2, hf, hfa⟩
        injection hf with hf
        subst hf
        exact absurd hfa.length_eq hlen
  | pnone =>
    constructor
    · intro h
      cases h
    · rintro ⟨fid, hf, _⟩
      cases hf
  | pint n =>
    constructor
    · intro h
      cases h
    · rintro ⟨fid, hf, _⟩
      cases hf
  | pstr s2 =>
    constructor
    · intro h
      cases h
    · rintro ⟨fid, hf, _⟩
      cases hf
  | pbool b =>
    constructor
    · intro h
      cases h
    · rintro ⟨fid, hf, _⟩
      cases hf
  | pobj d =>
    constructor
    · intro h
      cases h
    · rintro ⟨fid, hf, _⟩
      cases hf

/-- Characterisation of the field-method loop: it accepts exactly when
every required method is present as a Function-tagged field holding a
descriptor whose parameters match the recorded signature in order. -/
theorem checkFieldFuncs_ok_iff (st : St) (d : Nat) (l : List (String × List (Ty × Bool))) :
    checkFieldFuncs st (Payload.pobj d) l = Except.ok true ↔
      ∀ p ∈ l, ∃ a fid, (getDict st d).lookup p.1 = some a
        ∧ (getCell st a).t = Ty.func ∧ (getCell st a).v = Payload.pfunc fid
        ∧ List.Forall₂ (fun q r => Ty.getType q.1 = r.1 ∧ q.2 = r.2)
            (getFunc st fid).formalArgs p.2 := by
  induction l with
  | nil => simp [checkFieldFuncs]
  | cons p rest ih =>
    obtain ⟨fn, fsig⟩ := p
    cases hl : (getDict st d).lookup fn with
    | none =>
      simp [checkFieldFuncs, payloadContains, hl, except_bind_ok]
    | some a =>
      by_cases htf : (getCell st a).t = Ty.func
      · cases hcf : checkFunctionSignatures st (getCell st a).v fsig with
        | error e =>
          have hstep : checkFieldFuncs st (Payload.pobj d) ((fn, fsig) :: rest)
              = Except.error e := by
            simp [checkFieldFuncs, payloadContains, payloadGetField, hl, htf, except_bind_ok,
              except_bind_error, hcf]
          rw [hstep]
          constructor
          · intro h
            cases h
          · intro h
            obtain ⟨a2, fid2, ha2, _, hv2, hfa2⟩ := h (fn, fsig) (List.mem_cons_self _ _)
            rw [hl] at ha2
            injection ha2 with ha2
            subst ha2
            have : checkFunctionSignatures st (getCell st a).v fsig = Except.ok true :=
              (checkFunctionSignatures_ok_iff st _ fsig).mpr ⟨fid2, hv2, hfa2⟩
            rw [hcf] at this
            cases this
        | ok b =>
          cases b with
          | false =>
            have hstep : checkFieldFuncs st (Payload.pobj d) ((fn, fsig) :: rest)
                = Except.ok false := by
              simp [checkFieldFuncs, payloadContains, payloadGetField, hl, htf, except_bind_ok, hcf]
            rw [hstep]
            constructor
            · intro h
              cases h
            · intro h
              obtain ⟨a2, fid2, ha2, _, hv2, hfa2⟩ := h (fn, fsig) (List.mem_cons_self _ _)
              rw [hl] at ha2
              injection ha2 with ha2
              subst ha2
              have : checkFunctionSignatures st (getCell st a).v fsig = Except.ok true :=
                (checkFunctionSignatures_ok_iff st _ fsig).mpr ⟨fid2, hv2, hfa2⟩
              rw [hcf] at this
              injection this with hb
              cases hb
          | true =>
            have hstep : checkFieldFuncs st (Payload.pobj d) ((fn, fsig) :: rest)
                = checkFieldFuncs st (Payload.pobj d) rest := by
              simp [checkFieldFuncs, payloadContains, payloadGetField, hl, htf, except_bind_ok, hcf]
            rw [hstep, ih]
            simp only [List.mem_cons, forall_eq_or_imp]
            constructor
            · intro h
              obtain ⟨fid, hv, hfa⟩ := (checkFunctionSignatures_ok_iff st _ fsig).mp hcf
              exact ⟨⟨a, fid, hl, htf, hv, hfa⟩, h⟩
            · exact fun h => h.2
      · have hstep : checkFieldFuncs st (Payload.pobj d) ((fn, fsig) :: rest)
            = Except.ok false := by
          simp [checkFieldFuncs, payloadContains, payloadGetField, hl, htf, except_bind_ok]
        rw [hstep]
        constructor
        · intro h
          cases h
        · intro h
          obtain ⟨a2, fid2, ha2, ht2, _, _⟩ := h (fn, fsig) (List.mem_cons_self _ _)
          rw [hl] at ha2
          injection ha2 with ha2
          exact absurd (ha2 ▸ ht2) htf

/-- Rewriting every descriptor return type leaves `formalArgs` reads
untouched. -/
theorem getFunc_map_retType (st : St) (rt : Ty) (fid : Nat) :
    (getFunc { st with funobjs := st.funobjs.map (fun fo => { fo with returnType := rt }) } fid).formalArgs
      = (getFunc st fid).formalArgs := by
  simp only [getFunc, List.getD_eq_getElem?_getD, List.getElem?_map]
  cases h : st.funobjs[fid]? with
  | none => simp [h, defaultFunc]
  | some fo => simp [h]

/-- C6: interface satisfaction.  A nil-payload candidate vacuously
satisfies any declared interface; a candidate satisfies exactly when it is
nil, or it is Object-tagged with a field dictionary in which every required
field appears under exactly the required tag and every required method
appears as a Function-tagged field whose descriptor matches the recorded
parameter count, declared types and ref flags in order; the return type is
never consulted (rewriting every descriptor return type leaves the check
unchanged); and binding an object that is missing a required field to an
interface-typed variable fails with `TypeError`. -/
theorem C6_interface_satisfaction (ctx : Ctx) (st : St) (obj : Value) (iname : String)
    (itf : Interface)
    (hlk : ctx.interfaces.lookup iname = some itf)
    (hwf : obj.t = Ty.obj → obj.v = Payload.pnone ∨ ∃ d, obj.v = Payload.pobj d) :
    (obj.v = Payload.pnone → interfaceSatisfaction ctx st obj iname = Except.ok true)
  ∧ (interfaceSatisfaction ctx st obj iname = Except.ok true ↔
      (obj.v = Payload.pnone ∨
        (obj.t = Ty.obj ∧ ∃ d, obj.v = Payload.pobj d ∧
          (∀ p ∈ itf.fieldVars, ∃ a, (getDict st d).lookup p.1 = some a
            ∧ (getCell st a).t = p.2) ∧
          (∀ p ∈ itf.fieldFuncs, ∃ a fid, (getDict st d).lookup p.1 = some a
            ∧ (getCell st a).t = Ty.func ∧ (getCell st a).v = Payload.pfunc fid
            ∧ List.Forall₂ (fun q r => Ty.getType q.1 = r.1 ∧ q.2 = r.2)
                (getFunc st fid).formalArgs p.2))))
  ∧ (∀ (v : Payload) (s : List (Ty × Bool)) (rt : Ty),
      checkFunctionSignatures
          { st with funobjs := st.funobjs.map (fun fo => { fo with returnType := rt }) } v s
        = checkFunctionSignatures st v s)
  ∧ assignToPath ctxP missingFieldSt ["aP"] 1
      = Except.error (RunErr.err ErrKind.typeError "object does not satisfy the interface") := by
  refine ⟨?_, ?_, ?_, by rfl⟩
  · intro hz
    simp [interfaceSatisfaction, hlk, hz]
  · by_cases hz : obj.v = Payload.pnone
    · simp [interfaceSatisfaction, hlk, hz]
    · by_cases ht : obj.t = Ty.obj
      · obtain ⟨d, hd⟩ := (hwf ht).resolve_left hz
        obtain ⟨bv, hbv⟩ := checkFieldVars_isOk st d itf.fieldVars
        have hsat : interfaceSatisfaction ctx st obj iname
            = (if bv = false then Except.ok false
               else checkFieldFuncs st (Payload.pobj d) itf.fieldFuncs) := by
          simp [interfaceSatisfaction, hlk, hz, ht, hd, except_bind_ok, hbv]
        cases bv with
        | false =>
          rw [hsat]
          simp only [if_pos rfl]
          constructor
          · intro h
            cases h
          · rintro (hc | ⟨_, d2, hd2, hvars, _⟩)
            · exact absurd hc hz
            · rw [hd] at hd2
              injection hd2 with hd2
              subst hd2
              have : checkFieldVars st (Payload.pobj d) itf.fieldVars = Except.ok true :=
                (checkFieldVars_ok_iff st d itf.fieldVars).mpr hvars
              rw [hbv] at this
              injection this with hb
              cases hb
        | true =>
          rw [hsat]
          simp only [Bool.true_eq_false, if_false]
          rw [checkFieldFuncs_ok_iff]
          constructor
          · intro h
            exact Or.inr ⟨ht, d, hd, (checkFieldVars_ok_iff st d itf.fieldVars).mp hbv, h⟩
          · rintro (hc | ⟨_, d2, hd2, _, hfuncs⟩)
            · exact absurd hc hz
            · rw [hd] at hd2
              injection hd2 with hd2
              subst hd2
              exact hfuncs
      · have hsat : interfaceSatisfaction ctx st obj iname = Except.ok false := by
          simp [interfaceSatisfaction, hlk, hz, ht]
        rw [hsat]
        constructor
        · intro h
          injection h with hb
          cases hb
        · rintro (hc | ⟨hc, _⟩)
          · exact absurd hc hz
          · exact absurd hc ht
  · intro v s rt
    cases v with
    | pfunc fid =>
      simp only [checkFunctionSignatures, getFunc_map_retType]
    | pnone => rfl
    | pint n => rfl
    | pstr s2 => rfl
    | pbool b => rfl
    | pobj d2 => rfl

/-- Witness for C6: the nil candidate vacuously satisfies `P`. -/
theorem C6_interface_satisfaction_witness :
    interfaceSatisfaction ctxP missingFieldSt ⟨Ty.obj, Payload.pnone⟩ "P" = Except.ok true :=
  (C6_interface_satisfaction ctxP missingFieldSt ⟨Ty.obj, Payload.pnone⟩ "P" ifaceP rfl
    (fun _ => Or.inl rfl)).1 rfl

/-- A successful association-list lookup locates a member pair. -/
theorem lookup_mem {l : List (String × Nat)} {n : String} {a : Nat}
    (h : l.lookup n = some a) : (n, a) ∈ l := by
  induction l with
  | nil => cases h
  | cons p rest ih =>
    obtain ⟨k, v⟩ := p
    rw [List.lookup_cons] at h
    by_cases hk : n == k
    · simp only [hk] at h
      injection h with h
      have : n = k := by simpa using hk
      subst this
      subst h
      exact List.mem_cons_self _ _
    · simp only [Bool.not_eq_true] at hk
      simp only [hk] at h
      exact List.mem_cons_of_mem _ (ih h)

/-- Lookup misses when the key is not among the stored keys. -/
theorem lookup_none_of_not_mem_keys {l : List (String × Nat)} {n : String}
    (h : n ∉ l.map Prod.fst) : l.lookup n = none := by
  induction l with
  | nil => rfl
  | cons p rest ih =>
    obtain ⟨k, v⟩ := p
    simp only [List.map_cons, List.mem_cons, not_or] at h
    rw [List.lookup_cons]
    have : (n == k) = false := by simpa using h.1
    simp only [this]
    exact ih h.2

/-- Upserting a key makes it findable with the new value. -/
theorem lookup_listUpsert_self (l : List (String × Nat)) (k : String) (v : Nat) :
    (listUpsert l k v).lookup k = some v := by
  induction l with
  | nil => simp [listUpsert, List.lookup_cons]
  | cons p rest ih =>
    obtain ⟨k0, v0⟩ := p
    by_cases hk : k0 = k
    · simp [listUpsert, hk, List.lookup_cons]
    · have : (k == k0) = false := by simpa using fun hc => hk hc.symm
      simp [listUpsert, hk, List.lookup_cons, this, ih]

/-- Upserting one key leaves lookups of other keys unchanged. -/
theorem lookup_listUpsert_ne (l : List (String × Nat)) (k k2 : String) (v : Nat)
    (h : k2 ≠ k) : (listUpsert l k v).lookup k2 = l.lookup k2 := by
  induction l with
  | nil =>
    have : (k2 == k) = false := by simpa using h
    simp [listUpsert, List.lookup_cons, this]
  | cons p rest ih =>
    obtain ⟨k0, v0⟩ := p
    by_cases hk : k0 = k
    · subst hk
      have : (k2 == k0) = false := by simpa using h
      simp [listUpsert, List.lookup_cons, this]
    · simp only [listUpsert, if_neg hk]
      rw [List.lookup_cons, List.lookup_cons]
      cases hbe : k2 == k0
      · simp only []
        exact ih
      · simp only []

/-- Folding one block (with duplicate-free keys, as Python dicts guarantee)
into an accumulated capture dict: the block wins on its own keys. -/
theorem blockFold_lookup (b : Block) (acc : List (String × Nat)) (n : String)
    (hnd : (b.map Prod.fst).Nodup) :
    (blockFold acc b).lookup n = (b.lookup n).or (acc.lookup n) := by
  induction b generalizing acc with
  | nil => simp [blockFold]
  | cons p rest ih =>
    obtain ⟨k, v⟩ := p
    simp only [List.map_cons, List.nodup_cons] at hnd
    have hstep : blockFold acc ((k, v) :: rest) = blockFold (listUpsert acc k v) rest := rfl
    rw [hstep, ih _ hnd.2]
    rw [List.lookup_cons]
    by_cases hk : n = k
    · subst hk
      have hr : rest.lookup n = none := lookup_none_of_not_mem_keys hnd.1
      simp [hr, lookup_listUpsert_self]
    · have : (n == k) = false := by simpa using hk
      simp only [this]
      rw [lookup_listUpsert_ne _ _ _ _ hk]

/-- Unfold one block of the innermost-first search. -/
theorem getBlocks_cons (b : Block) (bs : List Block) (n : String) :
    getBlocks (b :: bs) n = (b.lookup n).or (getBlocks bs n) := by
  simp only [getBlocks]
  cases b.lookup n <;> simp

/-- The block search splits over list append. -/
theorem getBlocks_append (xs ys : List Block) (n : String) :
    getBlocks (xs ++ ys) n = (getBlocks xs n).or (getBlocks ys n) := by
  induction xs with
  | nil => simp [getBlocks]
  | cons b bs ih => simp [getBlocks_cons, ih, Option.or_assoc]

/-- Folding a sequence of blocks: the resulting dict resolves a name to its
binding in the latest block containing it. -/
theorem mergeFold_lookup (bs : List Block) (acc : List (String × Nat)) (n : String)
    (hnd : ∀ b ∈ bs, (b.map Prod.fst).Nodup) :
    (bs.foldl blockFold acc).lookup n = (getBlocks bs.reverse n).or (acc.lookup n) := by
  induction bs generalizing acc with
  | nil => simp [getBlocks]
  | cons b rest ih =>
    have h1 : (b :: rest).foldl blockFold acc = rest.foldl blockFold (blockFold acc b) := rfl
    rw [h1, ih _ (fun x hx => hnd x (List.mem_cons_of_mem _ hx))]
    rw [blockFold_lookup b acc n (hnd b (List.mem_cons_self _ _))]
    simp [List.reverse_cons, getBlocks_append, getBlocks_cons, getBlocks, Option.or_assoc]
    cases List.lookup n b <;> rfl

/-- The captured snapshot of `capture_vars` agrees with `Environment.get`:
each visible name is captured with exactly the wrapper the innermost
binding denotes. -/
theorem captureVars_lookup (f : Frame) (n : String)
    (hnd : ∀ b ∈ f.funcScope :: f.blocks, (b.map Prod.fst).Nodup) :
    (f.captureVars).lookup n = f.lookupVar n := by
  have hnd2 : ∀ b ∈ f.funcScope :: f.blocks.reverse, (b.map Prod.fst).Nodup := by
    intro b hb
    rcases List.mem_cons.mp hb with h | h
    · exact hnd b (h ▸ List.mem_cons_self _ _)
    · exact hnd b (List.mem_cons_of_mem _ (List.mem_reverse.mp h))
  rw [Frame.captureVars, mergeBlocks, mergeFold_lookup _ _ _ hnd2]
  simp only [List.reverse_cons, List.reverse_reverse]
  rw [Frame.lookupVar, getBlocks_append]
  simp [getBlocks_cons, getBlocks, Option.or_none]

/-- Extending the cell heap preserves reads of existing cells. -/
theorem getCell_of_cells_append {st1 st2 : St} (ext : List Value)
    (h : st2.cells = st1.cells ++ ext) (i : Nat) (hi : i < st1.cells.length) :
    getCell st2 i = getCell st1 i := by
  simp only [getCell, h]
  exact List.getD_append _ _ _ _ hi

/-- Snapshot cloning only appends cells to the heap. -/
theorem cloneCapturedVars_cells_append (l : List (String × Nat)) (st : St) :
    ∃ ext, (cloneCapturedVars l st).2.cells = st.cells ++ ext := by
  induction l generalizing st with
  | nil => exact ⟨[], by simp [cloneCapturedVars]⟩
  | cons p rest ih =>
    obtain ⟨m, b⟩ := p
    obtain ⟨ext, hext⟩ := ih (allocCell st (cloneWrapper (getCell st b))).2
    refine ⟨cloneWrapper (getCell st b) :: ext, ?_⟩
    simp only [cloneCapturedVars]
    rw [hext]
    simp [allocCell]

/-- Unfold one step of the snapshot-cloning loop. -/
theorem cloneCapturedVars_cons (m : String) (b : Nat) (rest : List (String × Nat)) (st : St) :
    cloneCapturedVars ((m, b) :: rest) st
      = ((m, (allocCell st (cloneWrapper (getCell st b))).1)
          :: (cloneCapturedVars rest (allocCell st (cloneWrapper (getCell st b))).2).1,
         (cloneCapturedVars rest (allocCell st (cloneWrapper (getCell st b))).2).2) := rfl

/-- Each entry of the cloned snapshot is a fresh wrapper (at or beyond the
old heap top) holding exactly the tag and payload of the captured cell at
creation time. -/
theorem cloneCapturedVars_lookup (l : List (String × Nat)) (st : St) (n : String) (a : Nat)
    (hwf : ∀ p ∈ l, p.2 < st.cells.length)
    (hlk : l.lookup n = some a) :
    ∃ a2, (cloneCapturedVars l st).1.lookup n = some a2
      ∧ st.cells.length ≤ a2
      ∧ getCell (cloneCapturedVars l st).2 a2 = getCell st a := by
  induction l generalizing st with
  | nil => cases hlk
  | cons p rest ih =>
    obtain ⟨m, b⟩ := p
    have hb : b < st.cells.length := hwf (m, b) (List.mem_cons_self _ _)
    rw [List.lookup_cons] at hlk
    rw [cloneCapturedVars_cons]
    by_cases hk : n == m
    · simp only [hk] at hlk
      injection hlk with hlk
      obtain ⟨ext, hext⟩ :=
        cloneCapturedVars_cells_append rest (allocCell st (cloneWrapper (getCell st b))).2
      refine ⟨(allocCell st (cloneWrapper (getCell st b))).1, ?_, ?_, ?_⟩
      · rw [List.lookup_cons]
        simp only [hk]
      · simp [allocCell]
      · have hlt : st.cells.length
            < (allocCell st (cloneWrapper (getCell st b))).2.cells.length := by
          simp [allocCell]
        have h1 : getCell (cloneCapturedVars rest (allocCell st (cloneWrapper (getCell st b))).2).2
            st.cells.length
            = getCell (allocCell st (cloneWrapper (getCell st b))).2 st.cells.length :=
          getCell_of_cells_append ext hext _ hlt
        have h2 : getCell (allocCell st (cloneWrapper (getCell st b))).2 st.cells.length
            = cloneWrapper (getCell st b) := getCell_alloc_self st _
        have ha1 : (allocCell st (cloneWrapper (getCell st b))).1 = st.cells.length := rfl
        rw [ha1, h1, h2, cloneWrapper_eq, hlk]
    · simp only [Bool.not_eq_true] at hk
      simp only [hk] at hlk
      have hwf2 : ∀ p ∈ rest,
          p.2 < (allocCell st (cloneWrapper (getCell st b))).2.cells.length := by
        intro p hp
        have := hwf p (List.mem_cons_of_mem _ hp)
        simp only [allocCell, List.length_append, List.length_cons, List.length_nil]
        omega
      obtain ⟨a2, h1, h2, h3⟩ := ih (allocCell st (cloneWrapper (getCell st b))).2 hwf2 hlk
      refine ⟨a2, ?_, ?_, ?_⟩
      · rw [List.lookup_cons]
        simp only [hk]
        exact h1
      · have : st.cells.length ≤ (allocCell st (cloneWrapper (getCell st b))).2.cells.length := by
          simp [allocCell]
        omega
      · have ha : a < st.cells.length :=
          hwf (n, a) (List.mem_cons_of_mem _ (lookup_mem hlk))
        rw [h3]
        exact getCell_append st _ a ha

/-- C5: lambda capture fixes the then-current value of each visible outer
variable.  For a frame with well-formed blocks, every name visible in the
frame is bound in the cloned snapshot to a fresh wrapper whose content at
creation equals the outer cell's content; overwriting the outer cell
afterwards (the in-place assignment of `=`) leaves the captured wrapper
unchanged — the primitive snapshot is therefore immune to later mutation of
the outer variable; and an Object-payload entry still aliases the original
field dictionary (same dict address), so field mutations through either
wrapper are observed by both. -/
theorem C5_lambda_capture (st : St) (f : Frame) (n : String) (a : Nat)
    (hnd : ∀ b ∈ f.funcScope :: f.blocks, (b.map Prod.fst).Nodup)
    (hwf : ∀ p ∈ f.captureVars, p.2 < st.cells.length)
    (hvis : f.lookupVar n = some a) :
    ∃ a2, (cloneCapturedVars f.captureVars st).1.lookup n = some a2
      ∧ st.cells.length ≤ a2
      ∧ getCell (cloneCapturedVars f.captureVars st).2 a2 = getCell st a
      ∧ (∀ c : Value, getCell (setCell (cloneCapturedVars f.captureVars st).2 a c) a2
          = getCell st a)
      ∧ (∀ d, (getCell st a).v = Payload.pobj d →
          (getCell (cloneCapturedVars f.captureVars st).2 a2).v = Payload.pobj d) := by
  have hcap : (f.captureVars).lookup n = some a := by
    rw [captureVars_lookup f n hnd, hvis]
  obtain ⟨a2, h1, h2, h3⟩ := cloneCapturedVars_lookup _ st n a hwf hcap
  have ha : a < st.cells.length := hwf (n, a) (lookup_mem hcap)
  refine ⟨a2, h1, h2, h3, ?_, ?_⟩
  · intro c
    rw [getCell_set_ne _ a c a2 (by omega), h3]
  · intro d hd
    rw [h3, hd]

/-- Witness for C5 on a two-variable frame capturing an object `xo` and an
integer `ti`. -/
theorem C5_lambda_capture_witness :
    ∃ a2, (cloneCapturedVars (Frame.captureVars ⟨[("xo", 0), ("ti", 1)], []⟩)
        ⟨[⟨Ty.obj, Payload.pobj 0⟩, ⟨Ty.int, Payload.pint 5⟩], [[]], [], [], [], []⟩).1.lookup "xo"
        = some a2
      ∧ 2 ≤ a2
      ∧ getCell (cloneCapturedVars (Frame.captureVars ⟨[("xo", 0), ("ti", 1)], []⟩)
          ⟨[⟨Ty.obj, Payload.pobj 0⟩, ⟨Ty.int, Payload.pint 5⟩], [[]], [], [], [], []⟩).2 a2
        = getCell ⟨[⟨Ty.obj, Payload.pobj 0⟩, ⟨Ty.int, Payload.pint 5⟩], [[]], [], [], [], []⟩ 0
      ∧ (∀ c : Value, getCell (setCell (cloneCapturedVars (Frame.captureVars ⟨[("xo", 0), ("ti", 1)], []⟩)
          ⟨[⟨Ty.obj, Payload.pobj 0⟩, ⟨Ty.int, Payload.pint 5⟩], [[]], [], [], [], []⟩).2 0 c) a2
          = getCell ⟨[⟨Ty.obj, Payload.pobj 0⟩, ⟨Ty.int, Payload.pint 5⟩], [[]], [], [], [], []⟩ 0)
      ∧ (∀ d, (getCell ⟨[⟨Ty.obj, Payload.pobj 0⟩, ⟨Ty.int, Payload.pint 5⟩], [[]], [], [], [], []⟩ 0).v
            = Payload.pobj d →
          (getCell (cloneCapturedVars (Frame.captureVars ⟨[("xo", 0), ("ti", 1)], []⟩)
            ⟨[⟨Ty.obj, Payload.pobj 0⟩, ⟨Ty.int, Payload.pint 5⟩], [[]], [], [], [], []⟩).2 a2).v
            = Payload.pobj d) :=
  C5_lambda_capture ⟨[⟨Ty.obj, Payload.pobj 0⟩, ⟨Ty.int, Payload.pint 5⟩], [[]], [], [], [], []⟩
    ⟨[("xo", 0), ("ti", 1)], []⟩ "xo" 0 (by decide) (by decide) (by rfl)
